import Mathlib

/-!
# Verification of the ghana-law-mcp core against its specification

This file gives a shallow embedding, in Lean 4, of the core algorithms of the
ghana-law-mcp repository: the citation grammar engine
(`src/citation/parser.ts`, `formatter.ts`, `validator.ts`), the polite
fetcher's retry loop (`scripts/lib/fetcher.ts`), the provision deduplicator
and cross-reference extractor of the database builder (`scripts/build-db.ts`),
and the multi-strategy document parser (`scripts/lib/parser.ts`).

JavaScript regular expressions are embedded via a small backtracking matcher
(`RE` / `mall`) whose candidate lists are produced in exactly the JS
backtracking priority order (first alternative first, greedy quantifiers
longest-first, lazy quantifiers shortest-first); the first full match is the
JS match, and capture groups record the consumed substring, last write wins.
-/

set_option maxRecDepth 4000

namespace GhanaLaw

/-- The JavaScript `\s` character class (ECMA-262 WhiteSpace ∪ LineTerminator),
which is also the set of characters removed by `String.prototype.trim`. -/
def jsWs (c : Char) : Bool :=
  let n := c.toNat
  n = 9 || n = 10 || n = 11 || n = 12 || n = 13 || n = 32 ||
  n = 0xa0 || n = 0x1680 || (0x2000 ≤ n && n ≤ 0x200a) ||
  n = 0x2028 || n = 0x2029 || n = 0x202f || n = 0x205f || n = 0x3000 || n = 0xfeff

/-- JS line terminators: the characters `.` does not match (no `s` flag). -/
def lineTerm (c : Char) : Bool :=
  let n := c.toNat
  n = 10 || n = 13 || n = 0x2028 || n = 0x2029

/-- The `\d` class. -/
def digitCh (c : Char) : Bool := '0' ≤ c && c ≤ '9'

/-- The `\w` class (for `\b` word-boundary tests). -/
def wordCh (c : Char) : Bool :=
  ('a' ≤ c && c ≤ 'z') || ('A' ≤ c && c ≤ 'Z') || digitCh c || c = '_'

/-- `[a-z]` (case-sensitive). -/
def lowerAZ (c : Char) : Bool := 'a' ≤ c && c ≤ 'z'

/-- `[a-z]` under the `i` flag (matches both cases). -/
def letterAZi (c : Char) : Bool := lowerAZ c || ('A' ≤ c && c ≤ 'Z')

/-- `[A-Za-z]` (case-sensitive). -/
def alphaAZ (c : Char) : Bool := ('A' ≤ c && c ≤ 'Z') || lowerAZ c

/-- Case folding used for the `i` flag (ASCII letters). -/
def ciFold (c : Char) : Char := if 'A' ≤ c && c ≤ 'Z' then c.toLower else c

/-- `String.prototype.trim` on a character list. -/
def trimChars (l : List Char) : List Char :=
  ((l.dropWhile jsWs).reverse.dropWhile jsWs).reverse

/-- `String.prototype.trim`. -/
def jsTrim (s : String) : String := ⟨trimChars s.data⟩

/-- Capture groups: index ↦ captured substring, most recent write first. -/
abbrev Caps := List (Nat × String)

/-- Read capture group `i` (JS `match[i]`, `undefined` when unset). -/
def capGet (caps : Caps) (i : Nat) : Option String :=
  (caps.find? (fun x => x.1 = i)).map (·.2)

/-- A backtracking state: the previously consumed character (for `\b` and
position-0 tests), the remaining input, and the captures so far. -/
structure MState where
  prev : Option Char
  rest : List Char
  caps : Caps
deriving DecidableEq, Repr

/-- Regular-expression ASTs, mirroring the JS pattern syntax used in the
repository.  `lit`/`liti` are literal characters (the latter under the `i`
flag), `cls` a character class, `star` a quantifier (`lz = true` for lazy),
`grp` a capture group, `look` a positive lookahead, `wb` is `\b`, `bos` is
`^` (no `m` flag) and `eol` is `$` (no `m` flag). -/
inductive RE where
  | eps
  | lit (c : Char)
  | liti (c : Char)
  | cls (p : Char → Bool)
  | seq (a b : RE)
  | alt (a b : RE)
  | star (lz : Bool) (a : RE)
  | grp (i : Nat) (a : RE)
  | look (a : RE)
  | wb
  | bos
  | eol

/-- `X*` semantics: iterate the body matcher `f`, requiring progress on every
iteration (our quantifier bodies all consume at least one character); a greedy
star lists longer expansions first, a lazy star lists the empty expansion
first.  The enumeration order is the JS backtracking order.  The fuel
argument only bounds the iteration count; `fuel = s.length` always suffices
because every iteration strictly shrinks the remaining input. -/
def starLoop (f : Option Char → List Char → Caps → List MState) (lz : Bool) :
    Nat → Option Char → List Char → Caps → List MState
  | 0, p, s, caps => [⟨p, s, caps⟩]
  | fuel + 1, p, s, caps =>
    let tails :=
      ((f p s caps).filter (fun m => m.rest.length < s.length)).flatMap
        (fun m => starLoop f lz fuel m.prev m.rest m.caps)
    if lz then ⟨p, s, caps⟩ :: tails else tails ++ [⟨p, s, caps⟩]

/-- `\b` test: word-ness differs between the previous and the next character. -/
def wordBoundary (p : Option Char) (s : List Char) : Bool :=
  (p.elim false wordCh) != ((s.head?).elim false wordCh)

/-- All ways `r` can match a prefix of `s`, in JS backtracking priority order
(first result = what the JS engine commits to). -/
def mall : RE → Option Char → List Char → Caps → List MState
  | .eps, p, s, caps => [⟨p, s, caps⟩]
  | .lit c, _, s, caps =>
    match s with
    | [] => []
    | x :: xs => if x = c then [⟨some x, xs, caps⟩] else []
  | .liti c, _, s, caps =>
    match s with
    | [] => []
    | x :: xs => if ciFold x = ciFold c then [⟨some x, xs, caps⟩] else []
  | .cls q, _, s, caps =>
    match s with
    | [] => []
    | x :: xs => if q x then [⟨some x, xs, caps⟩] else []
  | .seq a b, p, s, caps =>
    (mall a p s caps).flatMap (fun m => mall b m.prev m.rest m.caps)
  | .alt a b, p, s, caps => mall a p s caps ++ mall b p s caps
  | .star lz a, p, s, caps => starLoop (mall a) lz s.length p s caps
  | .grp i a, p, s, caps =>
    (mall a p s caps).map
      (fun m => ⟨m.prev, m.rest, (i, ⟨s.take (s.length - m.rest.length)⟩) :: m.caps⟩)
  | .look a, p, s, caps =>
    if (mall a p s caps).isEmpty then [] else [⟨p, s, caps⟩]
  | .wb, p, s, caps => if wordBoundary p s then [⟨p, s, caps⟩] else []
  | .bos, p, s, caps => if p.isNone then [⟨p, s, caps⟩] else []
  | .eol, p, s, caps => if s.isEmpty then [⟨p, s, caps⟩] else []

/-- `X+` is `XX*`. -/
def rplus (lz : Bool) (a : RE) : RE := .seq a (.star lz a)

/-- Greedy `X?`. -/
def ropt (a : RE) : RE := .alt a .eps

/-- Sequence a list of pieces. -/
def rcat (l : List RE) : RE := l.foldr .seq .eps

/-- A case-sensitive literal string. -/
def rstr (s : String) : RE := rcat (s.data.map .lit)

/-- A literal string under the `i` flag. -/
def rstri (s : String) : RE := rcat (s.data.map .liti)

/-- `\d{n}` (exactly n digits). -/
def rdigits (n : Nat) : RE := rcat (List.replicate n (.cls digitCh))

/-- `anchored.match(s)` for a `^...$` pattern: the captures of the first
backtracking branch that consumes the whole string (JS first-match). -/
def matchFull (r : RE) (s : String) : Option Caps :=
  (((mall r none s.data []).filter (fun m => m.rest.isEmpty)).head?).map (·.caps)

/-- One step of `regex.exec` from the current position: try each start
position left to right; at the first position where the pattern matches,
commit to the engine's first branch.  Returns (index, match length, caps). -/
def execAux (r : RE) (p : Option Char) (s : List Char) (idx : Nat) :
    Option (Nat × Nat × Caps) :=
  match (mall r p s []).head? with
  | some m => some (idx, s.length - m.rest.length, m.caps)
  | none =>
    match s with
    | [] => none
    | c :: cs => execAux r (some c) cs (idx + 1)

/-- `regex.exec` / `String.match` for an unanchored pattern (first match). -/
def execFirst (r : RE) (s : String) : Option (Nat × Nat × Caps) :=
  execAux r none s.data 0

/-- `regex.test`. -/
def rtest (r : RE) (s : String) : Bool := (execFirst r s).isSome

/-- The `while ((m = re.exec(text)) !== null)` loop of a `g`-flag regex:
all non-overlapping matches, left to right, each being the engine's first
branch at its start position.  Returns (index, matched chars, caps). -/
def gexecAux (r : RE) : Nat → Option Char → List Char → Nat →
    List (Nat × List Char × Caps)
  | 0, _, _, _ => []
  | fuel + 1, p, s, idx =>
    match (mall r p s []).head? with
    | some m =>
      if m.rest.length < s.length then
        (idx, s.take (s.length - m.rest.length), m.caps) ::
          gexecAux r fuel m.prev m.rest (idx + (s.length - m.rest.length))
      else []
    | none =>
      match s with
      | [] => []
      | c :: cs => gexecAux r fuel (some c) cs (idx + 1)

/-- All matches of a global regex over a string. -/
def gexec (r : RE) (s : String) : List (Nat × List Char × Caps) :=
  gexecAux r (s.data.length + 1) none s.data 0

example : matchFull (rcat [rstri "ab", .grp 1 (rplus false (.cls digitCh))]) "aB17" =
    some [(1, "17")] := by decide

example : gexec (rcat [.wb, rstr "ab", .wb]) "ab cab ab" =
    [(0, ['a', 'b'], []), (7, ['a', 'b'], [])] := by decide

/-! ## Engine meta-lemmas

Syntactic analyses of a pattern justify facts about every match: a pattern
that can never match the empty string always consumes at least one
character, and a capture group that lies on every path of the pattern and
whose body can never match empty is always recorded with a non-empty
capture. -/

/-- `true` only if every string matched by `r` is non-empty. -/
def neverEmpty : RE → Bool
  | .eps => false
  | .lit _ => true
  | .liti _ => true
  | .cls _ => true
  | .seq a b => neverEmpty a || neverEmpty b
  | .alt a b => neverEmpty a && neverEmpty b
  | .star _ _ => false
  | .grp _ a => neverEmpty a
  | .look _ => false
  | .wb => false
  | .bos => false
  | .eol => false

/-- `true` only if no capture group `i` occurs in `r`. -/
def groupFree (i : Nat) : RE → Bool
  | .eps => true
  | .lit _ => true
  | .liti _ => true
  | .cls _ => true
  | .seq a b => groupFree i a && groupFree i b
  | .alt a b => groupFree i a && groupFree i b
  | .star _ a => groupFree i a
  | .grp j a => !(j = i : Bool) && groupFree i a
  | .look a => groupFree i a
  | .wb => true
  | .bos => true
  | .eol => true

/-- `true` only if every match of `r` records a non-empty capture for group
`i` as its most recent write. -/
def mandNE (i : Nat) : RE → Bool
  | .grp j a => if j = i then neverEmpty a else mandNE i a
  | .seq a b => (mandNE i a && groupFree i b) || mandNE i b
  | .alt a b => mandNE i a && mandNE i b
  | _ => false

theorem starLoop_sublen (f : Option Char → List Char → Caps → List MState)
    (lz : Bool) :
    ∀ fuel p s caps m, m ∈ starLoop f lz fuel p s caps →
      m.rest.length ≤ s.length := by
  intro fuel
  induction fuel with
  | zero =>
    intro p s caps m hm
    rw [starLoop] at hm
    rcases List.mem_singleton.mp hm with rfl
    exact Nat.le_refl _
  | succ n ih =>
    intro p s caps m hm
    rw [starLoop] at hm
    have hstop : m = ⟨p, s, caps⟩ ∨
        m ∈ ((f p s caps).filter (fun m => m.rest.length < s.length)).flatMap
          (fun m1 => starLoop f lz n m1.prev m1.rest m1.caps) := by
      cases lz with
      | true =>
        rw [if_pos rfl] at hm
        rcases List.mem_cons.mp hm with h | h
        · exact Or.inl h
        · exact Or.inr h
      | false =>
        rw [if_neg (by simp)] at hm
        rcases List.mem_append.mp hm with h | h
        · exact Or.inr h
        · exact Or.inl (List.mem_singleton.mp h)
    rcases hstop with rfl | h
    · exact Nat.le_refl _
    · obtain ⟨m1, hm1, hm2⟩ := List.mem_flatMap.mp h
      have hlt : m1.rest.length < s.length :=
        of_decide_eq_true (List.mem_filter.mp hm1).2
      exact Nat.le_of_lt (Nat.lt_of_le_of_lt (ih m1.prev m1.rest m1.caps m hm2) hlt)

theorem mall_sublen :
    ∀ (r : RE) (p : Option Char) (s : List Char) (caps : Caps) m,
      m ∈ mall r p s caps → m.rest.length ≤ s.length := by
  intro r
  induction r with
  | eps =>
    intro p s caps m hm
    rcases List.mem_singleton.mp hm with rfl
    exact Nat.le_refl _
  | lit c =>
    intro p s caps m hm
    cases s with
    | nil =>
      rw [mall] at hm
      exact absurd hm (List.not_mem_nil m)
    | cons x xs =>
      rw [mall] at hm
      by_cases hx : x = c
      · rw [if_pos hx] at hm
        rcases List.mem_singleton.mp hm with rfl
        exact Nat.le_succ _
      · rw [if_neg hx] at hm
        exact absurd hm (List.not_mem_nil m)
  | liti c =>
    intro p s caps m hm
    cases s with
    | nil =>
      rw [mall] at hm
      exact absurd hm (List.not_mem_nil m)
    | cons x xs =>
      rw [mall] at hm
      by_cases hx : ciFold x = ciFold c
      · rw [if_pos hx] at hm
        rcases List.mem_singleton.mp hm with rfl
        exact Nat.le_succ _
      · rw [if_neg hx] at hm
        exact absurd hm (List.not_mem_nil m)
  | cls q =>
    intro p s caps m hm
    cases s with
    | nil =>
      rw [mall] at hm
      exact absurd hm (List.not_mem_nil m)
    | cons x xs =>
      rw [mall] at hm
      by_cases hx : q x
      · rw [if_pos hx] at hm
        rcases List.mem_singleton.mp hm with rfl
        exact Nat.le_succ _
      · rw [if_neg hx] at hm
        exact absurd hm (List.not_mem_nil m)
  | seq a b iha ihb =>
    intro p s caps m hm
    rw [mall] at hm
    obtain ⟨m1, hm1, hm2⟩ := List.mem_flatMap.mp hm
    exact Nat.le_trans (ihb m1.prev m1.rest m1.caps m hm2) (iha p s caps m1 hm1)
  | alt a b iha ihb =>
    intro p s caps m hm
    rw [mall] at hm
    rcases List.mem_append.mp hm with h | h
    · exact iha p s caps m h
    · exact ihb p s caps m h
  | star lz a iha =>
    intro p s caps m hm
    rw [mall] at hm
    exact starLoop_sublen (mall a) lz s.length p s caps m hm
  | grp i a iha =>
    intro p s caps m hm
    rw [mall] at hm
    obtain ⟨m1, hm1, rfl⟩ := List.mem_map.mp hm
    exact iha p s caps m1 hm1
  | look a iha =>
    intro p s caps m hm
    rw [mall] at hm
    split at hm
    · exact absurd hm (List.not_mem_nil m)
    · rcases List.mem_singleton.mp hm with rfl
      exact Nat.le_refl _
  | wb =>
    intro p s caps m hm
    rw [mall] at hm
    split at hm
    · rcases List.mem_singleton.mp hm with rfl
      exact Nat.le_refl _
    · exact absurd hm (List.not_mem_nil m)
  | bos =>
    intro p s caps m hm
    rw [mall] at hm
    split at hm
    · rcases List.mem_singleton.mp hm with rfl
      exact Nat.le_refl _
    · exact absurd hm (List.not_mem_nil m)
  | eol =>
    intro p s caps m hm
    rw [mall] at hm
    split at hm
    · rcases List.mem_singleton.mp hm with rfl
      exact Nat.le_refl _
    · exact absurd hm (List.not_mem_nil m)

theorem mall_progress :
    ∀ (r : RE), neverEmpty r = true →
      ∀ (p : Option Char) (s : List Char) (caps : Caps) m,
        m ∈ mall r p s caps → m.rest.length < s.length := by
  intro r
  induction r with
  | eps => intro h; exact absurd h (by simp [neverEmpty])
  | lit c =>
    intro _ p s caps m hm
    cases s with
    | nil =>
      rw [mall] at hm
      exact absurd hm (List.not_mem_nil m)
    | cons x xs =>
      rw [mall] at hm
      by_cases hx : x = c
      · rw [if_pos hx] at hm
        rcases List.mem_singleton.mp hm with rfl
        exact Nat.lt_succ_of_le (Nat.le_refl _)
      · rw [if_neg hx] at hm
        exact absurd hm (List.not_mem_nil m)
  | liti c =>
    intro _ p s caps m hm
    cases s with
    | nil =>
      rw [mall] at hm
      exact absurd hm (List.not_mem_nil m)
    | cons x xs =>
      rw [mall] at hm
      by_cases hx : ciFold x = ciFold c
      · rw [if_pos hx] at hm
        rcases List.mem_singleton.mp hm with rfl
        exact Nat.lt_succ_of_le (Nat.le_refl _)
      · rw [if_neg hx] at hm
        exact absurd hm (List.not_mem_nil m)
  | cls q =>
    intro _ p s caps m hm
    cases s with
    | nil =>
      rw [mall] at hm
      exact absurd hm (List.not_mem_nil m)
    | cons x xs =>
      rw [mall] at hm
      by_cases hx : q x
      · rw [if_pos hx] at hm
        rcases List.mem_singleton.mp hm with rfl
        exact Nat.lt_succ_of_le (Nat.le_refl _)
      · rw [if_neg hx] at hm
        exact absurd hm (List.not_mem_nil m)
  | seq a b iha ihb =>
    intro hne p s caps m hm
    rw [mall] at hm
    obtain ⟨m1, hm1, hm2⟩ := List.mem_flatMap.mp hm
    rcases Bool.or_eq_true_iff.mp (by simpa [neverEmpty] using hne) with ha | hb
    · exact Nat.lt_of_le_of_lt (mall_sublen b m1.prev m1.rest m1.caps m hm2)
        (iha ha p s caps m1 hm1)
    · exact Nat.lt_of_lt_of_le (ihb hb m1.prev m1.rest m1.caps m hm2)
        (mall_sublen a p s caps m1 hm1)
  | alt a b iha ihb =>
    intro hne p s caps m hm
    rw [mall] at hm
    obtain ⟨ha, hb⟩ := Bool.and_eq_true_iff.mp (by simpa [neverEmpty] using hne)
    rcases List.mem_append.mp hm with h | h
    · exact iha ha p s caps m h
    · exact ihb hb p s caps m h
  | star lz a iha => intro h; exact absurd h (by simp [neverEmpty])
  | grp i a iha =>
    intro hne p s caps m hm
    rw [mall] at hm
    obtain ⟨m1, hm1, rfl⟩ := List.mem_map.mp hm
    exact iha (by simpa [neverEmpty] using hne) p s caps m1 hm1
  | look a iha => intro h; exact absurd h (by simp [neverEmpty])
  | wb => intro h; exact absurd h (by simp [neverEmpty])
  | bos => intro h; exact absurd h (by simp [neverEmpty])
  | eol => intro h; exact absurd h (by simp [neverEmpty])

theorem capGet_cons (j : Nat) (v : String) (caps : Caps) (i : Nat) :
    capGet ((j, v) :: caps) i = if j = i then some v else capGet caps i := by
  by_cases h : j = i <;> simp [capGet, List.find?, h]

theorem starLoop_caps_pres (f : Option Char → List Char → Caps → List MState)
    (lz : Bool) (i : Nat)
    (hf : ∀ p s caps m, m ∈ f p s caps → capGet m.caps i = capGet caps i) :
    ∀ fuel p s caps m, m ∈ starLoop f lz fuel p s caps →
      capGet m.caps i = capGet caps i := by
  intro fuel
  induction fuel with
  | zero =>
    intro p s caps m hm
    rw [starLoop] at hm
    rcases List.mem_singleton.mp hm with rfl
    rfl
  | succ n ih =>
    intro p s caps m hm
    rw [starLoop] at hm
    have hstop : m = ⟨p, s, caps⟩ ∨
        m ∈ ((f p s caps).filter (fun m => m.rest.length < s.length)).flatMap
          (fun m1 => starLoop f lz n m1.prev m1.rest m1.caps) := by
      cases lz with
      | true =>
        rw [if_pos rfl] at hm
        rcases List.mem_cons.mp hm with h | h
        · exact Or.inl h
        · exact Or.inr h
      | false =>
        rw [if_neg (by simp)] at hm
        rcases List.mem_append.mp hm with h | h
        · exact Or.inr h
        · exact Or.inl (List.mem_singleton.mp h)
    rcases hstop with rfl | h
    · rfl
    · obtain ⟨m1, hm1, hm2⟩ := List.mem_flatMap.mp h
      rw [ih m1.prev m1.rest m1.caps m hm2,
        hf p s caps m1 (List.mem_of_mem_filter hm1)]

theorem mall_caps_pres (i : Nat) :
    ∀ (r : RE), groupFree i r = true →
      ∀ (p : Option Char) (s : List Char) (caps : Caps) m,
        m ∈ mall r p s caps → capGet m.caps i = capGet caps i := by
  intro r
  induction r with
  | eps =>
    intro _ p s caps m hm
    rcases List.mem_singleton.mp hm with rfl
    rfl
  | lit c =>
    intro _ p s caps m hm
    cases s with
    | nil =>
      rw [mall] at hm
      exact absurd hm (List.not_mem_nil m)
    | cons x xs =>
      rw [mall] at hm
      by_cases hx : x = c
      · rw [if_pos hx] at hm
        rcases List.mem_singleton.mp hm with rfl
        rfl
      · rw [if_neg hx] at hm
        exact absurd hm (List.not_mem_nil m)
  | liti c =>
    intro _ p s caps m hm
    cases s with
    | nil =>
      rw [mall] at hm
      exact absurd hm (List.not_mem_nil m)
    | cons x xs =>
      rw [mall] at hm
      by_cases hx : ciFold x = ciFold c
      · rw [if_pos hx] at hm
        rcases List.mem_singleton.mp hm with rfl
        rfl
      · rw [if_neg hx] at hm
        exact absurd hm (List.not_mem_nil m)
  | cls q =>
    intro _ p s caps m hm
    cases s with
    | nil =>
      rw [mall] at hm
      exact absurd hm (List.not_mem_nil m)
    | cons x xs =>
      rw [mall] at hm
      by_cases hx : q x
      · rw [if_pos hx] at hm
        rcases List.mem_singleton.mp hm with rfl
        rfl
      · rw [if_neg hx] at hm
        exact absurd hm (List.not_mem_nil m)
  | seq a b iha ihb =>
    intro hgf p s caps m hm
    obtain ⟨ha, hb⟩ := Bool.and_eq_true_iff.mp (by simpa [groupFree] using hgf)
    rw [mall] at hm
    obtain ⟨m1, hm1, hm2⟩ := List.mem_flatMap.mp hm
    rw [ihb hb m1.prev m1.rest m1.caps m hm2, iha ha p s caps m1 hm1]
  | alt a b iha ihb =>
    intro hgf p s caps m hm
    obtain ⟨ha, hb⟩ := Bool.and_eq_true_iff.mp (by simpa [groupFree] using hgf)
    rw [mall] at hm
    rcases List.mem_append.mp hm with h | h
    · exact iha ha p s caps m h
    · exact ihb hb p s caps m h
  | star lz a iha =>
    intro hgf p s caps m hm
    rw [mall] at hm
    exact starLoop_caps_pres (mall a) lz i
      (iha (by simpa [groupFree] using hgf)) s.length p s caps m hm
  | grp j a iha =>
    intro hgf p s caps m hm
    have h2 : ¬ j = i ∧ groupFree i a = true := by simpa [groupFree] using hgf
    obtain ⟨hji, ha⟩ := h2
    rw [mall] at hm
    obtain ⟨m1, hm1, rfl⟩ := List.mem_map.mp hm
    rw [capGet_cons, if_neg hji]
    exact iha ha p s caps m1 hm1
  | look a iha =>
    intro _ p s caps m hm
    rw [mall] at hm
    split at hm
    · exact absurd hm (List.not_mem_nil m)
    · rcases List.mem_singleton.mp hm with rfl
      rfl
  | wb =>
    intro _ p s caps m hm
    rw [mall] at hm
    split at hm
    · rcases List.mem_singleton.mp hm with rfl
      rfl
    · exact absurd hm (List.not_mem_nil m)
  | bos =>
    intro _ p s caps m hm
    rw [mall] at hm
    split at hm
    · rcases List.mem_singleton.mp hm with rfl
      rfl
    · exact absurd hm (List.not_mem_nil m)
  | eol =>
    intro _ p s caps m hm
    rw [mall] at hm
    split at hm
    · rcases List.mem_singleton.mp hm with rfl
      rfl
    · exact absurd hm (List.not_mem_nil m)

theorem mall_caps_mandNE (i : Nat) :
    ∀ (r : RE), mandNE i r = true →
      ∀ (p : Option Char) (s : List Char) (caps : Caps) m,
        m ∈ mall r p s caps →
        ∃ v, capGet m.caps i = some v ∧ v ≠ "" := by
  intro r
  induction r with
  | eps => intro h; exact absurd h (by simp [mandNE])
  | lit c => intro h; exact absurd h (by simp [mandNE])
  | liti c => intro h; exact absurd h (by simp [mandNE])
  | cls q => intro h; exact absurd h (by simp [mandNE])
  | seq a b iha ihb =>
    intro hmne p s caps m hm
    rw [mall] at hm
    obtain ⟨m1, hm1, hm2⟩ := List.mem_flatMap.mp hm
    have h2 : (mandNE i a = true ∧ groupFree i b = true) ∨ mandNE i b = true := by
      simpa [mandNE] using hmne
    rcases h2 with ⟨ha, hgf⟩ | hb
    · obtain ⟨v, hv, hvne⟩ := iha ha p s caps m1 hm1
      refine ⟨v, ?_, hvne⟩
      rw [mall_caps_pres i b hgf m1.prev m1.rest m1.caps m hm2, hv]
    · exact ihb hb m1.prev m1.rest m1.caps m hm2
  | alt a b iha ihb =>
    intro hmne p s caps m hm
    obtain ⟨ha, hb⟩ := Bool.and_eq_true_iff.mp (by simpa [mandNE] using hmne)
    rw [mall] at hm
    rcases List.mem_append.mp hm with h | h
    · exact iha ha p s caps m h
    · exact ihb hb p s caps m h
  | star lz a iha => intro h; exact absurd h (by simp [mandNE])
  | grp j a iha =>
    intro hmne p s caps m hm
    rw [mall] at hm
    obtain ⟨m1, hm1, rfl⟩ := List.mem_map.mp hm
    by_cases hji : j = i
    · subst hji
      have hne : neverEmpty a = true := by simpa [mandNE] using hmne
      refine ⟨⟨s.take (s.length - m1.rest.length)⟩, ?_, ?_⟩
      · rw [capGet_cons, if_pos rfl]
      · have hlt := mall_progress a hne p s caps m1 hm1
        intro hc
        have hdata : s.take (s.length - m1.rest.length) = [] := by
          simpa using congrArg String.data hc
        rw [List.take_eq_nil_iff] at hdata
        rcases hdata with h0 | h0
        · omega
        · subst h0
          simp at hlt
    · have ha : mandNE i a = true := by simpa [mandNE, hji] using hmne
      obtain ⟨v, hv, hvne⟩ := iha ha p s caps m1 hm1
      refine ⟨v, ?_, hvne⟩
      rw [capGet_cons, if_neg hji, hv]
  | look a iha => intro h; exact absurd h (by simp [mandNE])
  | wb => intro h; exact absurd h (by simp [mandNE])
  | bos => intro h; exact absurd h (by simp [mandNE])
  | eol => intro h; exact absurd h (by simp [mandNE])

/-- Any successful anchored match exhibits a member of the candidate list
consuming the whole input with its captures. -/
theorem matchFull_mem (r : RE) (t : String) (caps : Caps)
    (h : matchFull r t = some caps) :
    ∃ m, m ∈ mall r none t.data [] ∧ m.caps = caps := by
  rw [matchFull] at h
  cases hl : (mall r none t.data []).filter (fun m => m.rest.isEmpty) with
  | nil =>
    rw [hl] at h
    simp at h
  | cons x xs =>
    rw [hl] at h
    simp only [List.head?_cons] at h
    have h2 : x.caps = caps := by simpa using h
    have hx : x ∈ (mall r none t.data []).filter (fun m => m.rest.isEmpty) := by
      rw [hl]
      exact List.mem_cons_self x xs
    exact ⟨x, List.mem_of_mem_filter hx, h2⟩

/-- The non-empty-capture fact for a full match of a pattern whose group `i`
is mandatory with a non-empty body. -/
theorem matchFull_capNE (r : RE) (i : Nat) (t : String) (caps : Caps)
    (hr : mandNE i r = true) (h : matchFull r t = some caps) :
    ∃ v, capGet caps i = some v ∧ v ≠ "" := by
  obtain ⟨m, hmem, rfl⟩ := matchFull_mem r t caps h
  exact mall_caps_mandNE i r hr none t.data [] m hmem

/-! ## Number/string helpers shared by the embeddings -/

/-- `parseInt(s, 10)` on the all-digit strings captured by `\d...` groups. -/
def parseIntDec (s : String) : Nat :=
  s.data.foldl (fun acc c => acc * 10 + (c.toNat - 48)) 0

/-- The decimal digit character for `n < 10`. -/
def digitOf (n : Nat) : Char := Char.ofNat (48 + n)

/-- Decimal digits of `n`, most significant first (fueled for reducibility;
`fuel > n` always suffices). -/
def natDigsAux : Nat → Nat → List Char
  | 0, _ => []
  | fuel + 1, n =>
    if n < 10 then [digitOf n] else natDigsAux fuel (n / 10) ++ [digitOf (n % 10)]

/-- JS number-to-string conversion (template literals) for naturals. -/
def natToString (n : Nat) : String := ⟨natDigsAux (n + 1) n⟩

/-- JS truthiness of an optional string (`undefined` and `""` are falsy). -/
def strTruthy (o : Option String) : Bool := (o.getD "") ≠ ""

/-- JS truthiness of an optional number (`undefined` and `0` are falsy). -/
def natTruthy (o : Option Nat) : Bool := (o.getD 0) ≠ 0

/-- `${x}` for an optional string (`undefined` interpolates as "undefined"). -/
def jsShow (o : Option String) : String := o.getD "undefined"

/-- `${x}` for an optional number. -/
def jsShowNat (o : Option Nat) : String := (o.map natToString).getD "undefined"

/-- `x || undefined`: maps the falsy `""` (and `undefined`) to `undefined`. -/
def orUndefined (o : Option String) : Option String :=
  match o with
  | some "" => none
  | x => x

/-! ## The citation grammar (src/citation/parser.ts)

Each `RE` below is the literal translation of the corresponding JS regex
constant; all six citation grammars carry the `i` flag, `SECTION_REF` does
not. -/

/-- `\s*` -/
def wsS : RE := .star false (.cls jsWs)

/-- `\s+` -/
def wsP : RE := rplus false (.cls jsWs)

/-- `(?:Section|s\.?)` under `i`. -/
def sectionKw : RE := .alt (rstri "Section") (rcat [.liti 's', ropt (.lit '.')])

/-- `\d+(?:\(\d+\))*(?:\([a-z]\))*` — the section-reference sub-pattern shared
by the six grammars (under the `i` flag, so `[a-z]` matches both cases). -/
def secRefi : RE :=
  rcat [rplus false (.cls digitCh),
        .star false (rcat [.lit '(', rplus false (.cls digitCh), .lit ')']),
        .star false (rcat [.lit '(', .cls letterAZi, .lit ')'])]

/-- `.` (no `s` flag). -/
def dotC : RE := .cls (fun c => !lineTerm c)

/-- `(.+?)` body: lazy one-or-more of `.`. -/
def lazyDots : RE := rplus true dotC

/-- `/^(?:Section|s\.?)\s+(\d+(?:\(\d+\))*(?:\([a-z]\))*)\s*,?\s+(.+?)\s+(\d{4})\s*\(Act\s+(\d+)\)\s*$/i` -/
def FULL_WITH_ACT_NUMBER : RE :=
  rcat [sectionKw, wsP, .grp 1 secRefi, wsS, ropt (.lit ','), wsP,
        .grp 2 lazyDots, wsP, .grp 3 (rdigits 4), wsS,
        .lit '(', rstri "Act", wsP, .grp 4 (rplus false (.cls digitCh)), .lit ')', wsS]

/-- `/^(?:Section|s\.?)\s+(\d+(?:\(\d+\))*(?:\([a-z]\))*)\s*,?\s+(.+?)\s+(\d{4})\s*$/i` -/
def FULL_CITATION : RE :=
  rcat [sectionKw, wsP, .grp 1 secRefi, wsS, ropt (.lit ','), wsP,
        .grp 2 lazyDots, wsP, .grp 3 (rdigits 4), wsS]

/-- `/^s\.?\s+(\d+(?:\(\d+\))*(?:\([a-z]\))*)\s+(.+?)\s+(\d{4})$/i` -/
def SHORT_CITATION : RE :=
  rcat [.liti 's', ropt (.lit '.'), wsP, .grp 1 secRefi, wsP,
        .grp 2 lazyDots, wsP, .grp 3 (rdigits 4)]

/-- `/^(.+?)\s+(\d{4})\s*\(Act\s+(\d+)\)\s*,?\s*(?:Section|s\.?)\s*(\d+(?:\(\d+\))*(?:\([a-z]\))*)\s*$/i` -/
def TRAILING_WITH_ACT_NUMBER : RE :=
  rcat [.grp 1 lazyDots, wsP, .grp 2 (rdigits 4), wsS,
        .lit '(', rstri "Act", wsP, .grp 3 (rplus false (.cls digitCh)), .lit ')', wsS,
        ropt (.lit ','), wsS, sectionKw, wsS, .grp 4 secRefi, wsS]

/-- `/^(.+?)\s+(\d{4})\s*,?\s*(?:Section|s\.?)\s*(\d+(?:\(\d+\))*(?:\([a-z]\))*)\s*$/i` -/
def TRAILING_SECTION : RE :=
  rcat [.grp 1 lazyDots, wsP, .grp 2 (rdigits 4), wsS,
        ropt (.lit ','), wsS, sectionKw, wsS, .grp 3 secRefi, wsS]

/-- `/^(act-\d+-\d{4})\s*,?\s*(?:Section|s\.?)\s*(\d+(?:\(\d+\))*(?:\([a-z]\))*)\s*$/i` -/
def ID_BASED : RE :=
  rcat [.grp 1 (rcat [rstri "act-", rplus false (.cls digitCh), .lit '-', rdigits 4]),
        wsS, ropt (.lit ','), wsS, sectionKw, wsS, .grp 2 secRefi, wsS]

/-- `/^act-(\d+)-(\d{4})$/i` (the inner id decomposition). -/
def ID_PARTS : RE :=
  rcat [rstri "act-", .grp 1 (rplus false (.cls digitCh)), .lit '-', .grp 2 (rdigits 4)]

/-- `/^(\d+)(?:\((\d+)\))?(?:\(([a-z])\))?$/` (case-sensitive). -/
def SECTION_REF : RE :=
  rcat [.grp 1 (rplus false (.cls digitCh)),
        ropt (rcat [.lit '(', .grp 2 (rplus false (.cls digitCh)), .lit ')']),
        ropt (rcat [.lit '(', .grp 3 (.cls lowerAZ), .lit ')'])]

/-- The `ParsedCitation` record of src/types; absent fields are `none`. -/
structure ParsedCitation where
  valid : Bool := false
  type : String := "unknown"
  title : Option String := none
  act_number : Option Nat := none
  year : Option Nat := none
  «section» : Option String := none
  subsection : Option String := none
  paragraph : Option String := none
  error : Option String := none
deriving DecidableEq, Repr

/-- `parseSection` of src/citation/parser.ts: decompose the captured section
reference via `SECTION_REF`; on failure keep the raw string as `section`. -/
def parseSection (sectionStr : String) (title : Option String) (year : Nat)
    (actNumber : Option Nat) (type_ : String) : ParsedCitation :=
  match matchFull SECTION_REF sectionStr with
  | none =>
    { valid := true, type := type_, title := title.map jsTrim, year := some year,
      act_number := actNumber, «section» := some sectionStr }
  | some caps =>
    { valid := true, type := type_, title := title.map jsTrim, year := some year,
      act_number := actNumber, «section» := capGet caps 1,
      subsection := orUndefined (capGet caps 2),
      paragraph := orUndefined (capGet caps 3) }

/-- The fall-through chain of `parseCitation` after the ID-based grammar:
grammars 2–6 tried in source order, first match wins, else the invalid
record naming the trimmed input. -/
def parseCitationRest (trimmed : String) : ParsedCitation :=
  match matchFull FULL_WITH_ACT_NUMBER trimmed with
  | some m =>
    parseSection ((capGet m 1).getD "") (capGet m 2)
      (parseIntDec ((capGet m 3).getD ""))
      (some (parseIntDec ((capGet m 4).getD ""))) "act"
  | none =>
    match matchFull FULL_CITATION trimmed with
    | some m =>
      parseSection ((capGet m 1).getD "") (capGet m 2)
        (parseIntDec ((capGet m 3).getD "")) none "act"
    | none =>
      match matchFull SHORT_CITATION trimmed with
      | some m =>
        parseSection ((capGet m 1).getD "") (capGet m 2)
          (parseIntDec ((capGet m 3).getD "")) none "act"
      | none =>
        match matchFull TRAILING_WITH_ACT_NUMBER trimmed with
        | some m =>
          parseSection ((capGet m 4).getD "") (capGet m 1)
            (parseIntDec ((capGet m 2).getD ""))
            (some (parseIntDec ((capGet m 3).getD ""))) "act"
        | none =>
          match matchFull TRAILING_SECTION trimmed with
          | some m =>
            parseSection ((capGet m 3).getD "") (capGet m 1)
              (parseIntDec ((capGet m 2).getD "")) none "act"
          | none =>
            { valid := false, type := "unknown",
              error := some ("Could not parse Ghana citation: \"" ++ trimmed ++ "\"") }

/-- `parseCitation` of src/citation/parser.ts: the ID-based grammar first
(falling through when the matched id fails to decompose), then grammars 2–6
in source order, first match wins. -/
def parseCitation (citation : String) : ParsedCitation :=
  let trimmed := jsTrim citation
  let idStep : Option ParsedCitation :=
    match matchFull ID_BASED trimmed with
    | some m =>
      match matchFull ID_PARTS ((capGet m 1).getD "") with
      | some idp =>
        some (parseSection ((capGet m 2).getD "") none
          (parseIntDec ((capGet idp 2).getD ""))
          (some (parseIntDec ((capGet idp 1).getD ""))) "act")
      | none => none
    | none => none
  match idStep with
  | some r => r
  | none => parseCitationRest trimmed

/-! ## The citation formatter (src/citation/formatter.ts) -/

inductive CitationFormat where
  | full
  | short
  | pinpoint
deriving DecidableEq, Repr

/-- `buildPinpoint`: section, then `(subsection)`, then `(paragraph)` when
truthy. -/
def buildPinpoint (parsed : ParsedCitation) : String :=
  let r0 := (parsed.«section»).getD ""
  let r1 := if strTruthy parsed.subsection then
      r0 ++ "(" ++ parsed.subsection.getD "" ++ ")" else r0
  if strTruthy parsed.paragraph then
    r1 ++ "(" ++ parsed.paragraph.getD "" ++ ")" else r1

/-- `formatCitation` of src/citation/formatter.ts. -/
def formatCitation (parsed : ParsedCitation) (format : CitationFormat) : String :=
  if !parsed.valid || !strTruthy parsed.«section» then ""
  else
    let pinpoint := buildPinpoint parsed
    let actSuffix := if natTruthy parsed.act_number then
        " (Act " ++ natToString (parsed.act_number.getD 0) ++ ")" else ""
    let yearStr := match parsed.year with
      | some y => natToString y
      | none => ""
    match format with
    | .full =>
      jsTrim ("Section " ++ pinpoint ++ ", " ++ parsed.title.getD "" ++ " " ++
        yearStr ++ actSuffix)
    | .short =>
      jsTrim ("s. " ++ pinpoint ++ ", " ++ parsed.title.getD "" ++ " " ++ yearStr)
    | .pinpoint => "s. " ++ pinpoint

/-! ## The citation validator (src/citation/validator.ts)

The relational store is outside this core (spec §1): it is abstracted as a
record of the three lookups the validator issues, with the exact argument
strings the source computes. -/

structure DocRow where
  id : String
  title : String
  status : String
deriving DecidableEq, Repr

structure LawDb where
  /-- `SELECT ... WHERE act_number = ? AND year = ? LIMIT 1`. -/
  docByActYear : Nat → Option Nat → Option DocRow
  /-- `SELECT ... WHERE title LIKE ? LIMIT 1` (receives the LIKE pattern). -/
  docByTitleLike : String → Option DocRow
  /-- The provision-existence query; arguments: document id, provision_ref,
  pinpoint, allowPrefixMatch. -/
  provisionHit : String → String → String → Bool → Bool

structure ValidationResult where
  citation : ParsedCitation
  document_exists : Bool
  provision_exists : Bool
  document_title : Option String := none
  status : Option String := none
  warnings : List String
deriving DecidableEq, Repr

/-- `validateCitation` of src/citation/validator.ts. -/
def validateCitation (db : LawDb) (citation : String) : ValidationResult :=
  let parsed := parseCitation citation
  if !parsed.valid then
    { citation := parsed, document_exists := false, provision_exists := false,
      warnings := [parsed.error.getD "Invalid citation format"] }
  else
    let doc0 : Option DocRow :=
      if natTruthy parsed.act_number then
        db.docByActYear (parsed.act_number.getD 0) parsed.year
      else none
    let doc : Option DocRow :=
      match doc0 with
      | some d => some d
      | none =>
        if strTruthy parsed.title then
          db.docByTitleLike ("%" ++ parsed.title.getD "" ++ "%" ++
            (match parsed.year with | some y => natToString y | none => "") ++ "%")
        else none
    match doc with
    | none =>
      let identifier :=
        if natTruthy parsed.act_number then
          "Act " ++ natToString (parsed.act_number.getD 0) ++ " (" ++
            jsShowNat parsed.year ++ ")"
        else jsShow parsed.title ++ " " ++ jsShowNat parsed.year
      { citation := parsed, document_exists := false, provision_exists := false,
        warnings := ["Document \"" ++ identifier ++ "\" not found in database"] }
    | some d =>
      let warnings0 := if d.status = "repealed" then
          ["This statute has been repealed"] else []
      if strTruthy parsed.«section» then
        let pinpoint := (parsed.«section»).getD "" ++
          (if strTruthy parsed.subsection then
            "(" ++ parsed.subsection.getD "" ++ ")" else "") ++
          (if strTruthy parsed.paragraph then
            "(" ++ parsed.paragraph.getD "" ++ ")" else "")
        let provisionRef := "s" ++ pinpoint
        let allowPrefixMatch := parsed.subsection.isNone && parsed.paragraph.isNone
        let provisionExists := db.provisionHit d.id provisionRef pinpoint allowPrefixMatch
        let warnings1 :=
          if !provisionExists then
            warnings0 ++ ["Section " ++ pinpoint ++ " not found in " ++ d.title]
          else warnings0
        { citation := parsed, document_exists := true,
          provision_exists := provisionExists, document_title := some d.title,
          status := some d.status, warnings := warnings1 }
      else
        { citation := parsed, document_exists := true, provision_exists := false,
          document_title := some d.title, status := some d.status,
          warnings := warnings0 }

example :
    parseCitation "act-843-2012, s. 1" =
      { valid := true, type := "act", act_number := some 843, year := some 2012,
        «section» := some "1" } := by decide

/-! ## The polite fetcher's retry loop (scripts/lib/fetcher.ts)

`fetchWithRateLimit` is modelled over an abstract response source
`resp : Nat → FetchResult` giving the response of the (attempt+1)-th `fetch`
call.  The observable behaviour is the list of backoff delays slept and the
outcome: `Except.ok` for a normal return of a response, `Except.error` for the
trailing `throw`.  The global 500 ms inter-request throttle happens before the
loop and does not affect the retry behaviour. -/

structure FetchResult where
  status : Nat
  body : String
  contentType : String
deriving DecidableEq, Repr

/-- The retry condition of the source: `status === 429 || status >= 500`. -/
def retryableStatus (status : Nat) : Bool := status = 429 || 500 ≤ status

/-- The `for (attempt = 0; attempt <= maxRetries; attempt++)` loop body.  Fuel
counts the remaining loop iterations (`maxRetries + 1 - attempt`); when it
reaches 0 the loop exits and the trailing `throw` fires.  The nested source
conditions `(429 || >= 5xx)` and `attempt < maxRetries` are both required to
retry; in every other case the response is returned as-is. -/
def fetchLoop (url : String) (resp : Nat → FetchResult) (maxRetries : Nat) :
    Nat → Nat → List Nat × Except String FetchResult
  | 0, _ =>
    ([], .error ("Failed to fetch " ++ url ++ " after " ++
      natToString maxRetries ++ " retries"))
  | fuel + 1, attempt =>
    let response := resp attempt
    if retryableStatus response.status && attempt < maxRetries then
      let backoff := 2 ^ (attempt + 1) * 1000
      let next := fetchLoop url resp maxRetries fuel (attempt + 1)
      (backoff :: next.1, next.2)
    else
      ([], .ok response)

/-- `fetchWithRateLimit(url, maxRetries = 3)` over the response source. -/
def fetchWithRateLimit (url : String) (resp : Nat → FetchResult)
    (maxRetries : Nat := 3) : List Nat × Except String FetchResult :=
  fetchLoop url resp maxRetries (maxRetries + 1) 0

/-! ## The provision deduplicator (scripts/build-db.ts) -/

/-- `normalizeWhitespace` helper: collapse each maximal `\s+` run to a single
space (structurally, tracking whether we are inside a run). -/
def collapseWsAux : Bool → List Char → List Char
  | _, [] => []
  | inRun, c :: cs =>
    if jsWs c then
      if inRun then collapseWsAux true cs else ' ' :: collapseWsAux true cs
    else c :: collapseWsAux false cs

/-- `normalizeWhitespace`: `text.replace(/\s+/g, ' ').trim()`. -/
def normalizeWhitespace (text : String) : String :=
  jsTrim ⟨collapseWsAux false text.data⟩

/-- The `ProvisionSeed` record of scripts/build-db.ts. -/
structure ProvisionSeed where
  provision_ref : String
  part : Option String := none
  chapter : Option String := none
  «section» : String
  title : Option String := none
  content : String
  metadata : Option String := none
deriving DecidableEq, Repr

structure DedupStats where
  duplicate_refs : Nat
  conflicting_duplicates : Nat
deriving DecidableEq, Repr

/-- `pickPreferredProvision`: the incoming provision wins exactly when its
whitespace-normalized content is strictly longer; the winner's missing title
falls back (`??`) to the loser's. -/
def pickPreferredProvision (existing incoming : ProvisionSeed) : ProvisionSeed :=
  let existingContent := normalizeWhitespace existing.content
  let incomingContent := normalizeWhitespace incoming.content
  if existingContent.length < incomingContent.length then
    { incoming with title := incoming.title.orElse (fun _ => existing.title) }
  else
    { existing with title := existing.title.orElse (fun _ => incoming.title) }

/-- JS `Map.get` on an insertion-ordered association list. -/
def getAssoc {α : Type} : List (String × α) → String → Option α
  | [], _ => none
  | (k', v') :: rest, k => if k' = k then some v' else getAssoc rest k

/-- JS `Map.set`: update in place if the key exists, else append. -/
def setAssoc {α : Type} : List (String × α) → String → α → List (String × α)
  | [], k, v => [(k, v)]
  | (k', v') :: rest, k, v =>
    if k' = k then (k', v) :: rest else (k', v') :: setAssoc rest k v

/-- `dedupeProvisions` of scripts/build-db.ts: group by trimmed
`provision_ref`, resolve collisions via `pickPreferredProvision`, and count
raw duplicates and content-conflicting duplicates. -/
def dedupeProvisions (provisions : List ProvisionSeed) :
    List ProvisionSeed × DedupStats :=
  let step := fun (acc : List (String × ProvisionSeed) × DedupStats)
      (provision : ProvisionSeed) =>
    let ref := jsTrim provision.provision_ref
    match getAssoc acc.1 ref with
    | none => (setAssoc acc.1 ref { provision with provision_ref := ref }, acc.2)
    | some existing =>
      let stats1 := { acc.2 with duplicate_refs := acc.2.duplicate_refs + 1 }
      let existingContent := normalizeWhitespace existing.content
      let incomingContent := normalizeWhitespace provision.content
      let stats2 :=
        if existingContent ≠ incomingContent then
          { stats1 with conflicting_duplicates := stats1.conflicting_duplicates + 1 }
        else stats1
      (setAssoc acc.1 ref (pickPreferredProvision existing provision), stats2)
  let out := provisions.foldl step ([], ⟨0, 0⟩)
  (out.1.map (·.2), out.2)

/-! ## The cross-reference extractor (scripts/build-db.ts) -/

/-- `toLowerCase` (ASCII letters suffice for the captured words). -/
def jsLower (s : String) : String := ⟨s.data.map Char.toLower⟩

/-- `toUpperCase`. -/
def jsUpper (s : String) : String := ⟨s.data.map Char.toUpper⟩

/-- `X{0,n}` greedy. -/
def rupto : Nat → RE → RE
  | 0, _ => .eps
  | n + 1, a => ropt (.seq a (rupto n a))

/-- `X{m,n}` greedy. -/
def rrange (m n : Nat) (a : RE) : RE :=
  .seq (rcat (List.replicate m a)) (rupto (n - m) a)

/-- `(Regulation|Directive)` under `i`. -/
def regOrDir : RE := .alt (rstri "Regulation") (rstri "Directive")

/-- `(EU|EC|EEC|Euratom)` under `i`. -/
def euCommAlt : RE :=
  .alt (rstri "EU") (.alt (rstri "EC") (.alt (rstri "EEC") (rstri "Euratom")))

/-- `(?:No\.?\s*)?` under `i`. -/
def noDotOpt : RE := ropt (rcat [rstri "No", ropt (.lit '.'), wsS])

/-- `/\b(Regulation|Directive)\s*\((EU|EC|EEC|Euratom)\)\s*(?:No\.?\s*)?(\d{2,4})\/(\d{1,4})\b/gi` -/
def euPat0 : RE :=
  rcat [.wb, .grp 1 regOrDir, wsS, .lit '(', .grp 2 euCommAlt, .lit ')', wsS,
        noDotOpt, .grp 3 (rrange 2 4 (.cls digitCh)), .lit '/',
        .grp 4 (rrange 1 4 (.cls digitCh)), .wb]

/-- `/\b(Regulation|Directive)\s*(?:No\.?\s*)?(\d{2,4})\/(\d{1,4})\/(EU|EC|EEC|Euratom)\b/gi` -/
def euPat1 : RE :=
  rcat [.wb, .grp 1 regOrDir, wsS, noDotOpt, .grp 2 (rrange 2 4 (.cls digitCh)),
        .lit '/', .grp 3 (rrange 1 4 (.cls digitCh)), .lit '/',
        .grp 4 euCommAlt, .wb]

/-- `/\b(Regulation|Directive)\s*(?:No\.?\s*)?(\d{2,4})\/(\d{1,4})\b/gi` -/
def euPat2 : RE :=
  rcat [.wb, .grp 1 regOrDir, wsS, noDotOpt, .grp 2 (rrange 2 4 (.cls digitCh)),
        .lit '/', .grp 3 (rrange 1 4 (.cls digitCh)), .wb]

/-- `normalizeEuYear`: two-digit years split at 50. -/
def normalizeEuYear (rawYear : String) : Nat :=
  let parsed := parseIntDec rawYear
  if rawYear.length = 2 then
    if 50 ≤ parsed then 1900 + parsed else 2000 + parsed
  else parsed

/-- `buildEuDocumentId`. -/
def buildEuDocumentId (type_ : String) (year number : Nat) : String :=
  type_ ++ ":" ++ natToString year ++ "/" ++ natToString number

/-- `/\b(implement|implemented|implements|transpos|supplement|complies?|gives effect)\b/i` -/
def implementsRe : RE :=
  rcat [.wb,
        .grp 1 (.alt (rstri "implement") (.alt (rstri "implemented")
          (.alt (rstri "implements") (.alt (rstri "transpos")
            (.alt (rstri "supplement")
              (.alt (rcat [rstri "complie", ropt (.liti 's')])
                (rstri "gives effect"))))))),
        .wb]

/-- `inferReferenceType`. -/
def inferReferenceType (context : String) : String :=
  if rtest implementsRe context then "implements" else "references"

/-- `/\bArticle\s+(\d+[A-Za-z]?(?:\(\d+\))?)/i` -/
def articleRe : RE :=
  rcat [.wb, rstri "Article", wsP,
        .grp 1 (rcat [rplus false (.cls digitCh), ropt (.cls alphaAZ),
                      ropt (rcat [.lit '(', rplus false (.cls digitCh), .lit ')'])])]

/-- `extractArticleReference`: first `Article N` in the context, or null. -/
def extractArticleReference (context : String) : Option String :=
  (execFirst articleRe context).bind (fun r => capGet r.2.2 1)

/-- `normalizeCommunity`. -/
def normalizeCommunity (value : Option String) : String :=
  if !strTruthy value then "EU"
  else
    let upper := jsUpper (value.getD "")
    if upper = "EC" then "EC"
    else if upper = "EEC" then "EEC"
    else if upper = "EURATOM" then "Euratom"
    else if upper = "AU" then "AU"
    else if upper = "ECOWAS" then "ECOWAS"
    else "EU"

/-- The `ExtractedEUReference` record. -/
structure ExtractedEUReference where
  type : String
  community : String
  year : Nat
  number : Nat
  euDocumentId : String
  euArticle : Option String
  fullCitation : String
  referenceContext : String
  referenceType : String
deriving DecidableEq, Repr

/-- The 120-characters-each-side context window around a match, then
whitespace-normalized (`.replace(/\s+/g, ' ').trim()`). -/
def contextWindow (text : List Char) (idx len : Nat) : String :=
  let start := idx - 120
  let stop := min text.length (idx + len + 120)
  normalizeWhitespace ⟨(text.drop start).take (stop - start)⟩

/-- The within-call dedupe key: `` `${euDocumentId}:${euArticle ?? ''}` ``. -/
def euDedupeKey (id : String) (article : Option String) : String :=
  id ++ ":" ++ article.getD ""

/-- Record a reference under its dedupe key, skipping seen keys. -/
def seenPush (acc : List String × List ExtractedEUReference) (key : String)
    (r : ExtractedEUReference) : List String × List ExtractedEUReference :=
  if acc.1.contains key then acc else (acc.1 ++ [key], acc.2 ++ [r])

/-- The shared tail of one generic-pattern match: year normalization, the
`continue` guards, context window, article, relationship, and dedupe. -/
def euMatchCore (text : List Char) (m : Nat × List Char × Caps)
    (acc : List String × List ExtractedEUReference)
    (type_ rawYear rawNumber : String) (communityRaw : Option String) :
    List String × List ExtractedEUReference :=
  let year := normalizeEuYear rawYear
  let number := parseIntDec rawNumber
  if year = 0 || number = 0 then acc
  else
    let community := normalizeCommunity communityRaw
    let referenceContext := contextWindow text m.1 m.2.1.length
    let euArticle := extractArticleReference referenceContext
    let referenceType := inferReferenceType referenceContext
    let euDocumentId := buildEuDocumentId type_ year number
    seenPush acc (euDedupeKey euDocumentId euArticle)
      { type := type_, community := community, year := year,
        number := number, euDocumentId := euDocumentId,
        euArticle := euArticle, fullCitation := ⟨m.2.1⟩,
        referenceContext := referenceContext,
        referenceType := referenceType }

/-- Process one match of generic EU pattern `patIdx` (0/1/2): the capture
layout differs per pattern (`if pattern === euPatterns[k]`). -/
def euMatchStep (text : List Char) (patIdx : Nat)
    (m : Nat × List Char × Caps)
    (acc : List String × List ExtractedEUReference) :
    List String × List ExtractedEUReference :=
  let caps := m.2.2
  let type_ := jsLower ((capGet caps 1).getD "")
  if patIdx = 0 then
    euMatchCore text m acc type_ ((capGet caps 3).getD "") ((capGet caps 4).getD "")
      (capGet caps 2)
  else if patIdx = 1 then
    euMatchCore text m acc type_ ((capGet caps 2).getD "") ((capGet caps 3).getD "")
      (capGet caps 4)
  else
    euMatchCore text m acc type_ ((capGet caps 2).getD "") ((capGet caps 3).getD "")
      none

/-- One named-instrument pattern with its fixed identity. -/
structure ConventionPattern where
  pattern : RE
  id : String
  type : String
  community : String
  year : Nat
  number : Nat
  title : String

/-- The five `conventionPatterns` of scripts/build-db.ts, in source order. -/
def conventionPatterns : List ConventionPattern :=
  [⟨rcat [.wb, .alt (rstri "GDPR") (rstri "General Data Protection Regulation"), .wb],
    "regulation:2016/679", "regulation", "EU", 2016, 679,
    "General Data Protection Regulation (GDPR)"⟩,
   ⟨rcat [.wb, rstri "EU", wsS, ropt (rcat [rstri "Data Protection", wsS]),
          rstri "Directive", wsS, rstri "95/46", .wb],
    "directive:1995/46", "directive", "EC", 1995, 46,
    "EU Data Protection Directive 95/46/EC"⟩,
   ⟨rcat [.wb, .alt (rstri "Malabo Convention")
            (.alt (rstri "AU Convention on Cyber Security")
              (rstri "African Union Convention on Cyber Security and Personal Data Protection")),
          .wb],
    "directive:2014/1", "directive", "AU", 2014, 1,
    "AU Convention on Cyber Security and Personal Data Protection (Malabo Convention)"⟩,
   ⟨rcat [.wb, .alt (rstri "Budapest Convention") (rstri "Convention on Cybercrime"), .wb],
    "directive:2001/185", "directive", "EU", 2001, 185,
    "Convention on Cybercrime (Budapest Convention)"⟩,
   ⟨rcat [.wb, rstri "Convention", wsS, rstri "108", .wb],
    "directive:1981/108", "directive", "EU", 1981, 108,
    "Convention for the Protection of Individuals with regard to Automatic Processing of Personal Data (Convention 108)"⟩]

/-- Process one match of a named-instrument pattern; the dedupe key ignores
articles (`` `${id}:` ``) and shares the `seen` set with the generic pass. -/
def convMatchStep (text : List Char) (cp : ConventionPattern)
    (m : Nat × List Char × Caps)
    (acc : List String × List ExtractedEUReference) :
    List String × List ExtractedEUReference :=
  let referenceContext := contextWindow text m.1 m.2.1.length
  let referenceType := inferReferenceType referenceContext
  seenPush acc (cp.id ++ ":")
    { type := cp.type, community := cp.community, year := cp.year,
      number := cp.number, euDocumentId := cp.id, euArticle := none,
      fullCitation := ⟨m.2.1⟩, referenceContext := referenceContext,
      referenceType := referenceType }

/-- `extractEuReferences` of scripts/build-db.ts: blank text yields nothing;
otherwise the three generic patterns then the five named patterns are
exec-looped in order over the text, deduping within the call through one
shared `seen` set. -/
def extractAcc (text : String) : List String × List ExtractedEUReference :=
  conventionPatterns.foldl
    (fun acc cp => (gexec cp.pattern text).foldl
      (fun a m => convMatchStep text.data cp m a) acc)
    ((((gexec euPat0 text).map (fun m => (0, m))) ++
      ((gexec euPat1 text).map (fun m => (1, m))) ++
      ((gexec euPat2 text).map (fun m => (2, m)))).foldl
      (fun acc (pm : Nat × (Nat × List Char × Caps)) =>
        euMatchStep text.data pm.1 pm.2 acc) ([], []))

def extractEuReferences (text : String) : List ExtractedEUReference :=
  if jsTrim text = "" then [] else (extractAcc text).2

/-! ## is_primary assignment in the ingestion pipeline (buildDatabase)

The `primaryImplementationByDocument` set is keyed by
`` `${seed.id}:${ref.euDocumentId}` `` and threaded across every provision of
every seed document; a reference is marked primary exactly when it is
classified `implements` and its key is unseen, in which case the key is
recorded. -/

/-- Mark one document's worth of already-extracted references, threading the
primary set. -/
def markRefsStep (docId : String) (refs : List ExtractedEUReference)
    (acc : List (String × ExtractedEUReference × Bool) × List String) :
    List (String × ExtractedEUReference × Bool) × List String :=
  refs.foldl
    (fun a r =>
      let primaryKey := docId ++ ":" ++ r.euDocumentId
      let isPrimary := r.referenceType = "implements" && !(a.2.contains primaryKey)
      (a.1 ++ [(docId, r, isPrimary)],
       if isPrimary then a.2 ++ [primaryKey] else a.2))
    acc

/-- The reference rows inserted for the documents of one build run, in
insertion order, with their `is_primary_implementation` flag: for each seed
document, provisions are scanned in order, each provision's content goes
through `extractEuReferences`, and every extracted reference is marked. -/
def pipelineEuRefs (docs : List (String × List ProvisionSeed)) :
    List (String × ExtractedEUReference × Bool) :=
  (docs.foldl
    (fun acc doc =>
      doc.2.foldl
        (fun a prov => markRefsStep doc.1 (extractEuReferences prov.content) a)
        acc)
    ([], [])).1

/-! ## The multi-strategy document parser (scripts/lib/parser.ts)

The cheerio DOM is an external boundary (spec §6): a fetched page is
abstracted as the data each strategy reads from it — the AKN section nodes in
document order with the attributes/texts the code inspects, the embedded TOC
JSON (present/parse-ok), an id→element-text resolver, and the full body text.
All text fields hold the raw `.text()` contents; every `.trim()` /
whitespace normalization of the source is applied explicitly below. -/

/-- What strategy 1 reads from one `section.akn-subsection` node. -/
structure AknSubsection where
  num : String
  texts : List String
deriving DecidableEq, Repr

/-- What strategy 1 reads from one `section.akn-section` node. -/
structure AknSection where
  idAttr : Option String
  dataEid : Option String
  headingText : String
  parentHeading : Option String
  subTexts : List AknSubsection
  directTexts : List String
deriving DecidableEq, Repr

/-- One node of the embedded `akn_toc_json` tree. -/
inductive TocItem where
  | mk (id : String) (type : String) (title : String) (heading : String)
       (children : List TocItem)

def TocItem.id : TocItem → String | .mk v _ _ _ _ => v
def TocItem.type : TocItem → String | .mk _ v _ _ _ => v
def TocItem.title : TocItem → String | .mk _ _ v _ _ => v
def TocItem.heading : TocItem → String | .mk _ _ _ v _ => v
def TocItem.children : TocItem → List TocItem | .mk _ _ _ _ v => v

/-- A fetched GhanaLII page, abstracted to what `parseActContent` reads. -/
structure Page where
  titleText : String
  frbrUri : Option String
  aknSections : List AknSection
  /-- `none`: no `script#akn_toc_json`; `some none`: present but JSON.parse
  throws (caught); `some (some items)`: the parsed TOC. -/
  toc : Option (Option (List TocItem))
  idText : String → Option String
  bodyText : String

structure ParsedProvision where
  provision_ref : String
  part : Option String := none
  chapter : Option String := none
  «section» : String
  title : String
  content : String
deriving DecidableEq, Repr

structure ParsedDefinition where
  term : String
  definition : String
  source_provision : Option String := none
deriving DecidableEq, Repr

structure ParsedAct where
  id : String
  type : String
  title : String
  short_name : String
  act_number : Nat
  year : Nat
  status : String
  issued_date : String
  url : String
  provisions : List ParsedProvision
  definitions : List ParsedDefinition
deriving DecidableEq, Repr

/-- `str.replace(re, "")` for the first match of an (unanchored) regex. -/
def replaceFirstRe (r : RE) (rep : String) (s : String) : String :=
  match execFirst r s with
  | some (idx, len, _) => ⟨s.data.take idx ++ rep.data ++ s.data.drop (idx + len)⟩
  | none => s

/-- `/\s*[–—-]\s*GhaLII\s*$/` -/
def ghaliiSuffixRe : RE :=
  rcat [wsS, .cls (fun c => c = '–' || c = '—' || c = '-'), wsS,
        rstr "GhaLII", wsS, .eol]

/-- `/@(\d{4}-\d{2}-\d{2})/` -/
def frbrDateRe : RE :=
  rcat [.lit '@', .grp 1 (rcat [rdigits 4, .lit '-', rdigits 2, .lit '-', rdigits 2])]

/-- `/(?:^|__)sec_(\d+)/` -/
def secIdRe : RE :=
  rcat [.alt .bos (rstr "__"), rstr "sec_", .grp 1 (rplus false (.cls digitCh))]

/-- `/^\d+\.\s*/` (strip a leading "N. " from a section title). -/
def stripNumDotRe : RE := rcat [.bos, rplus false (.cls digitCh), .lit '.', wsS]

/-- `/^PART\s/i` -/
def partRe : RE := rcat [.bos, rstri "PART", .cls jsWs]

/-- `/^CHAPTER\s/i` -/
def chapterRe : RE := rcat [.bos, rstri "CHAPTER", .cls jsWs]

/-- `/\b(?:interpretation|definitions?)\b/i` -/
def interpRe : RE :=
  rcat [.wb, .alt (rstri "interpretation")
               (rcat [rstri "definition", ropt (.liti 's')]), .wb]

/-- Opening quotes of the definition pattern: `[“"„]`. -/
def openQuote (c : Char) : Bool := c = '“' || c = '"' || c = '„'

/-- Closing quotes: `[”"‟]`. -/
def closeQuote (c : Char) : Bool := c = '”' || c = '"' || c = '‟'

/-- `/[“"„]([^”"‟]+)[”"‟]\s+means\s+([^;]+);/gi` -/
def defPatternRe : RE :=
  rcat [.cls openQuote, .grp 1 (rplus false (.cls (fun c => !closeQuote c))),
        .cls closeQuote, wsP, rstri "means", wsP,
        .grp 2 (rplus false (.cls (fun c => c ≠ ';'))), .lit ';']

/-- `extractDefinitionsFromContent`. -/
def extractDefinitionsFromContent (content : String) (sourceProvision : String) :
    List ParsedDefinition :=
  (gexec defPatternRe content).map (fun m =>
    { term := jsTrim ((capGet m.2.2 1).getD ""),
      definition := jsTrim ((capGet m.2.2 2).getD ""),
      source_provision := some sourceProvision })

/-- Join with single spaces (`Array.join(' ')`). -/
def joinSp : List String → String
  | [] => ""
  | x :: xs => xs.foldl (fun a b => a ++ " " ++ b) x

/-- JS `String.split(/\s+/)`. -/
def splitSpAux : List Char → List Char → List String
  | cur, [] => [⟨cur.reverse⟩]
  | cur, c :: cs =>
    if c = ' ' then ⟨cur.reverse⟩ :: splitSpAux [] cs else splitSpAux (c :: cur) cs

def jsSplitWs (s : String) : List String := splitSpAux [] (collapseWsAux false s.data)

/-- `/,\s*\d{4}.*$/` (the ", 2012 (Act 843)" suffix removed by buildShortName). -/
def yearSuffixRe : RE :=
  rcat [.lit ',', wsS, rdigits 4, .star false dotC, .eol]

/-- `buildShortName` of scripts/lib/parser.ts. -/
def buildShortName (title : String) (year : Nat) : String :=
  let words := jsSplitWs (replaceFirstRe yearSuffixRe ""
    ⟨title.data.filter (fun c => !(c = '(' || c = ')'))⟩)
  if words.length ≤ 3 then title ++ " " ++ natToString year
  else
    let significant := words.filter (fun w =>
      2 < w.length &&
      (match w.data with | c :: _ => c = c.toUpper | [] => false) &&
      !(["The", "And", "For", "Act", "Of", "In", "To", "With"].contains w))
    if 2 ≤ significant.length then
      (⟨(significant.take 4).map (fun w => w.data.headD ' ')⟩ : String) ++ " " ++
        natToString year
    else jsTrim ⟨title.data.take 30⟩ ++ " " ++ natToString year

/-- Strategy 1 (structured AKN markup): running state is
(currentPart, currentChapter, provisions, definitions). -/
def strat1Step (st : Option String × Option String × List ParsedProvision × List ParsedDefinition)
    (sec : AknSection) :
    Option String × Option String × List ParsedProvision × List ParsedDefinition :=
  let sectionId :=
    if strTruthy sec.idAttr then sec.idAttr.getD ""
    else if strTruthy sec.dataEid then sec.dataEid.getD "" else ""
  match execFirst secIdRe sectionId with
  | none => st
  | some r =>
    let sectionNum := (capGet r.2.2 1).getD ""
    let provisionRef := "s" ++ sectionNum
    let sectionTitle :=
      jsTrim (replaceFirstRe stripNumDotRe "" (normalizeWhitespace sec.headingText))
    let curPart :=
      match sec.parentHeading with
      | some h => if rtest partRe (jsTrim h) then some (jsTrim h) else st.1
      | none => st.1
    let curChap :=
      match sec.parentHeading with
      | some h => if rtest chapterRe (jsTrim h) then some (jsTrim h) else st.2.1
      | none => st.2.1
    let contentParts := sec.subTexts.foldl
      (fun ps sub =>
        let num := jsTrim sub.num
        let text := joinSp ((sub.texts.map normalizeWhitespace).filter (· ≠ ""))
        if text ≠ "" then
          ps ++ [if num ≠ "" then num ++ " " ++ text else text]
        else ps)
      []
    let contentParts :=
      if contentParts.isEmpty then
        let directContent :=
          joinSp ((sec.directTexts.map normalizeWhitespace).filter (· ≠ ""))
        if directContent ≠ "" then [directContent] else []
      else contentParts
    let content := normalizeWhitespace (joinSp contentParts)
    if content ≠ "" then
      (curPart, curChap,
       st.2.2.1 ++ [{ provision_ref := provisionRef, part := curPart,
                      chapter := curChap, «section» := sectionNum,
                      title := sectionTitle, content := content }],
       if rtest interpRe sectionTitle then
         st.2.2.2 ++ extractDefinitionsFromContent content provisionRef
       else st.2.2.2)
    else (curPart, curChap, st.2.2.1, st.2.2.2)

/-- Strategy 1 over all `section.akn-section` nodes in document order. -/
def strat1 (sections : List AknSection) :
    List ParsedProvision × List ParsedDefinition :=
  let out := sections.foldl strat1Step (none, none, [], [])
  (out.2.2.1, out.2.2.2)

/-- First occurrence of `needle` in `hay` (JS `String.replace` with a string
pattern finds the first literal occurrence; the empty needle matches at 0). -/
def findSubAux : List Char → List Char → Nat → Option Nat
  | h, n, i =>
    if n.isPrefixOf h then some i
    else
      match h with
      | [] => none
      | _ :: t => findSubAux t n (i + 1)

/-- `hay.replace(needle, rep)` for literal string needles. -/
def jsReplaceOnce (hay needle rep : String) : String :=
  match findSubAux hay.data needle.data 0 with
  | some i => ⟨hay.data.take i ++ rep.data ++ hay.data.drop (i + needle.data.length)⟩
  | none => hay

/-- Strategy 2: recursive walk of the TOC tree (`extractSectionsFromToc`). -/
def tocSectionsList (idText : String → Option String) : List TocItem → List ParsedProvision
  | [] => []
  | item :: rest =>
    let own :=
      if item.type = "section" && item.id ≠ "" then
        match execFirst secIdRe item.id with
        | some r =>
          let sectionNum := (capGet r.2.2 1).getD ""
          match idText item.id with
          | some elText =>
            let content := normalizeWhitespace elText
            let cleanContent := jsTrim (jsReplaceOnce content item.title "")
            if cleanContent ≠ "" then
              [{ provision_ref := "s" ++ sectionNum, «section» := sectionNum,
                 title := jsTrim item.heading, content := cleanContent }]
            else []
          | none => []
        | none => []
      else []
    own ++ tocSectionsList idText item.children ++ tocSectionsList idText rest
termination_by l => sizeOf l
decreasing_by
  all_goals cases item with
  | mk a b c d ch => simp [TocItem.children] <;> omega

/-- Strategy 2 entry: nothing without a parse-ok `script#akn_toc_json`. -/
def strat2 (page : Page) : List ParsedProvision :=
  match page.toc with
  | some (some items) => tocSectionsList page.idText items
  | some none => []
  | none => []

/-- `/(?:Section|SECTION)\s+(\d+)[\.\s—–-]+(.+?)(?=(?:Section|SECTION)\s+\d+|$)/gs` -/
def sectionPattern3 : RE :=
  rcat [.alt (rstr "Section") (rstr "SECTION"), wsP,
        .grp 1 (rplus false (.cls digitCh)),
        rplus false (.cls (fun c => c = '.' || jsWs c || c = '—' || c = '–' || c = '-')),
        .grp 2 (rplus true (.cls (fun _ => true))),
        .look (.alt (rcat [.alt (rstr "Section") (rstr "SECTION"), wsP,
                           rplus false (.cls digitCh)])
                    .eol)]

/-- Strategy 3: regex fallback over the full page text. -/
def strat3 (bodyText : String) : List ParsedProvision :=
  (gexec sectionPattern3 bodyText).foldl
    (fun ps m =>
      let sectionNum := (capGet m.2.2 1).getD ""
      let sectionBody := jsTrim ((capGet m.2.2 2).getD "")
      let provisionRef := "s" ++ sectionNum
      let tIdx := sectionBody.data.findIdx? (fun c => c = '.' || c = '\n')
      let sectionTitle :=
        match tIdx with
        | some i => if 0 < i then jsTrim ⟨sectionBody.data.take i⟩ else ""
        | none => ""
      let content0 :=
        match tIdx with
        | some i => if 0 < i then jsTrim ⟨sectionBody.data.drop (i + 1)⟩ else sectionBody
        | none => sectionBody
      if jsTrim content0 ≠ "" then
        ps ++ [{ provision_ref := provisionRef, «section» := sectionNum,
                 title := sectionTitle, content := jsTrim content0 }]
      else ps)
    []

/-- `parseActContent` of scripts/lib/parser.ts: metadata extraction plus the
three provision strategies, tried in order, each only when every earlier one
produced zero provisions; the function is total and returns a `ParsedAct`
with an empty provision list when all three fail. -/
def parseActContent (page : Page) (year actNumber : Nat) (actTitle : String) :
    ParsedAct :=
  let pageTitle0 := replaceFirstRe ghaliiSuffixRe "" (jsTrim page.titleText)
  let pageTitle := if pageTitle0 ≠ "" then pageTitle0 else actTitle
  let title := normalizeWhitespace pageTitle
  let shortName := buildShortName title year
  let issuedDate :=
    match page.frbrUri with
    | some uri =>
      match execFirst frbrDateRe uri with
      | some r => (capGet r.2.2 1).getD ""
      | none => natToString year ++ "-01-01"
    | none => natToString year ++ "-01-01"
  let canonicalUrl :=
    "https://ghalii.org/akn/gh/act/" ++ natToString year ++ "/" ++ natToString actNumber
  let s1 := strat1 page.aknSections
  let provisions1 := s1.1
  let definitions := s1.2
  let provisions2 := if provisions1.isEmpty then strat2 page else provisions1
  let provisions3 := if provisions2.isEmpty then strat3 page.bodyText else provisions2
  { id := "act-" ++ natToString actNumber ++ "-" ++ natToString year,
    type := "act", title := title, short_name := shortName,
    act_number := actNumber, year := year, status := "in_force",
    issued_date := issuedDate, url := canonicalUrl,
    provisions := provisions3, definitions := definitions }

/-! ## Claim C6: ordered fallback strategy selection -/

/-- The specification combinator: the first non-empty list, else empty. -/
def firstNonEmpty {α : Type} : List (List α) → List α
  | [] => []
  | l :: ls => if l.isEmpty then firstNonEmpty ls else l

/-- **C6.**  `parseActContent` is total — it always returns a `ParsedAct` —
and its provisions are those of the first strategy yielding at least one
provision, the strategies being tried strictly in the order structured AKN
markup, TOC-JSON fallback, regex fallback; a later strategy runs only when
every earlier one yielded zero provisions, and when all three yield zero the
returned act simply has an empty provision list (with its metadata fields
still populated).  A missing or unparseable TOC script makes strategy 2
yield nothing rather than erroring. -/
theorem C6_parser_strategy_order (page : Page) (year actNumber : Nat)
    (actTitle : String) :
    (parseActContent page year actNumber actTitle).provisions =
      firstNonEmpty [(strat1 page.aknSections).1, strat2 page, strat3 page.bodyText] ∧
    ((strat1 page.aknSections).1 ≠ [] →
      (parseActContent page year actNumber actTitle).provisions =
        (strat1 page.aknSections).1) ∧
    ((strat1 page.aknSections).1 = [] → strat2 page ≠ [] →
      (parseActContent page year actNumber actTitle).provisions = strat2 page) ∧
    ((strat1 page.aknSections).1 = [] → strat2 page = [] →
      (parseActContent page year actNumber actTitle).provisions =
        strat3 page.bodyText) ∧
    (page.toc = none → strat2 page = []) ∧
    (page.toc = some none → strat2 page = []) ∧
    (parseActContent page year actNumber actTitle).id =
      "act-" ++ natToString actNumber ++ "-" ++ natToString year ∧
    (parseActContent page year actNumber actTitle).status = "in_force" ∧
    (parseActContent page year actNumber actTitle).definitions =
      (strat1 page.aknSections).2 := by
  have hmain : (parseActContent page year actNumber actTitle).provisions =
      (if (if ((strat1 page.aknSections).1).isEmpty then strat2 page
          else (strat1 page.aknSections).1).isEmpty then strat3 page.bodyText
       else (if ((strat1 page.aknSections).1).isEmpty then strat2 page
          else (strat1 page.aknSections).1)) := rfl
  refine ⟨?_, ?_, ?_, ?_, ?_, ?_, rfl, rfl, rfl⟩
  · rw [hmain]
    by_cases h1 : ((strat1 page.aknSections).1).isEmpty
    · by_cases h2 : (strat2 page).isEmpty
      · by_cases h3 : (strat3 page.bodyText).isEmpty
        · simp [firstNonEmpty, h1, h2, h3, List.isEmpty_iff.mp h3]
        · simp [firstNonEmpty, h1, h2, h3]
      · simp [firstNonEmpty, h1, h2]
    · simp [firstNonEmpty, h1]
  · intro hne
    rw [hmain]
    have h1 : ¬ ((strat1 page.aknSections).1).isEmpty := by
      simpa [List.isEmpty_iff] using hne
    simp [h1]
  · intro he hne
    rw [hmain]
    have h2 : ¬ (strat2 page).isEmpty := by
      simpa [List.isEmpty_iff] using hne
    simp [he, h2]
  · intro he h2
    rw [hmain]
    simp [he, h2]
  · intro h
    rw [strat2, h]
  · intro h
    rw [strat2, h]

/-- A page with no AKN sections and no TOC, whose body text only the regex
fallback can parse. -/
def regexOnlyPage : Page :=
  { titleText := "", frbrUri := none, aknSections := [], toc := none,
    idText := fun _ => none,
    bodyText := "Section 1. Application. This Act applies to data." }

/-- Witness for C6: on `regexOnlyPage` the first two strategies yield nothing
and the regex fallback's provisions are returned. -/
theorem C6_parser_strategy_order_witness :
    (strat1 regexOnlyPage.aknSections).1 = [] ∧
    strat2 regexOnlyPage = [] ∧
    (parseActContent regexOnlyPage 2012 843 "Data Act").provisions =
      strat3 regexOnlyPage.bodyText :=
  ⟨by decide, by decide,
   (C6_parser_strategy_order regexOnlyPage 2012 843 "Data Act").2.2.2.1
     (by decide) (by decide)⟩

/-! ## Claim C3: provision deduplication -/

/-- A 40-character content (no internal whitespace, so it is its own
whitespace normalization). -/
def content40 : String := "0123456789012345678901234567890123456789"

/-- A 60-character content. -/
def content60 : String :=
  "012345678901234567890123456789012345678901234567890123456789"

def prov40 : ProvisionSeed := { provision_ref := "s1", «section» := "1", content := content40 }
def prov60 : ProvisionSeed := { provision_ref := "s1", «section» := "1", content := content60 }
def provA : ProvisionSeed := { provision_ref := "s2", «section» := "2", content := "abc" }
def provB : ProvisionSeed := { provision_ref := "s2", «section» := "2", content := "abd" }

/-- **C3.** On a `provision_ref` collision the provision with the strictly
longer whitespace-normalized content is retained — the incoming provision
wins only on strictly greater length, taking the existing title as fallback
when it has none, and on ties (including equal length with different text)
the first-seen provision is kept with the incoming title as fallback; the
collision always counts into `duplicate_refs`, and into
`conflicting_duplicates` exactly when the normalized contents differ.  In
particular contents of normalized lengths 40 and 60 retain the 60-character
provision in either order, and an equal-length differing pair is counted as
`conflicting_duplicates = 1`. -/
theorem C3_dedupe_longest_wins (p q : ProvisionSeed)
    (h : jsTrim p.provision_ref = jsTrim q.provision_ref) :
    (((normalizeWhitespace p.content).length < (normalizeWhitespace q.content).length →
        dedupeProvisions [p, q] =
          ([{ q with title := q.title.orElse (fun _ => p.title) }],
           ⟨1, if normalizeWhitespace p.content = normalizeWhitespace q.content then 0 else 1⟩)) ∧
     ((normalizeWhitespace q.content).length ≤ (normalizeWhitespace p.content).length →
        dedupeProvisions [p, q] =
          ([{ p with provision_ref := jsTrim p.provision_ref,
                     title := p.title.orElse (fun _ => q.title) }],
           ⟨1, if normalizeWhitespace p.content = normalizeWhitespace q.content then 0 else 1⟩))) ∧
    (dedupeProvisions [prov40, prov60]).1.map (·.content) = [content60] ∧
    (dedupeProvisions [prov60, prov40]).1.map (·.content) = [content60] ∧
    content40.length = 40 ∧ content60.length = 60 ∧
    (normalizeWhitespace provA.content).length = (normalizeWhitespace provB.content).length ∧
    (dedupeProvisions [provA, provB]).2.conflicting_duplicates = 1 ∧
    (dedupeProvisions [provA, provB]).1.map (·.content) = ["abc"] := by
  constructor
  · constructor
    · intro hlt
      by_cases hc : normalizeWhitespace p.content = normalizeWhitespace q.content
      · rw [hc] at hlt
        exact absurd hlt (lt_irrefl _)
      · simp [dedupeProvisions, getAssoc, setAssoc, pickPreferredProvision,
          ← h, hlt, hc]
    · intro hle
      have hnlt : ¬ (normalizeWhitespace p.content).length <
          (normalizeWhitespace q.content).length := Nat.not_lt.mpr hle
      by_cases hc : normalizeWhitespace p.content = normalizeWhitespace q.content
      · simp [dedupeProvisions, getAssoc, setAssoc, pickPreferredProvision,
          ← h, hnlt, hc]
      · simp [dedupeProvisions, getAssoc, setAssoc, pickPreferredProvision,
          ← h, hnlt, hc]
  · refine ⟨by decide, by decide, by decide, by decide, by decide, by decide, by decide⟩

/-- Witness for C3 at a concrete collision discharging the hypothesis. -/
theorem C3_dedupe_longest_wins_witness :
    jsTrim prov40.provision_ref = jsTrim prov60.provision_ref ∧
    ((normalizeWhitespace prov40.content).length <
        (normalizeWhitespace prov60.content).length →
      dedupeProvisions [prov40, prov60] =
        ([{ prov60 with title := prov60.title.orElse (fun _ => prov40.title) }],
         ⟨1, if normalizeWhitespace prov40.content = normalizeWhitespace prov60.content
             then 0 else 1⟩)) :=
  ⟨by decide, ((C3_dedupe_longest_wins prov40 prov60 (by decide)).1).1⟩

/-! ## Claims C2 and C9: the fetcher's retry behaviour -/

/-- The number of retries actually performed from attempt `i` with the given
retry budget: the length of the run of retryable responses, capped. -/
def leadingRetriesAux (resp : Nat → FetchResult) : Nat → Nat → Nat
  | 0, _ => 0
  | budget + 1, i =>
    if retryableStatus (resp i).status then 1 + leadingRetriesAux resp budget (i + 1)
    else 0

/-- Full characterization of the retry loop: starting at `attempt` with the
loop invariant `attempt + fuel = maxR + 1`, the loop sleeps
`2^(a+1) * 1000 ms` for each retried attempt `a` and then returns (`.ok`) the
first non-retried response — the response after the run of retryable ones,
capped at `maxR` retries.  In particular the trailing `throw` is unreachable. -/
theorem fetchLoop_cons (url : String) (resp : Nat → FetchResult)
    (maxR fuel attempt : Nat)
    (hr : retryableStatus (resp attempt).status = true) (hlt : attempt < maxR) :
    fetchLoop url resp maxR (fuel + 1) attempt =
      (2 ^ (attempt + 1) * 1000 :: (fetchLoop url resp maxR fuel (attempt + 1)).1,
       (fetchLoop url resp maxR fuel (attempt + 1)).2) := by
  simp only [fetchLoop]
  rw [if_pos (by simp [hr, hlt])]

theorem fetchLoop_done (url : String) (resp : Nat → FetchResult)
    (maxR fuel attempt : Nat)
    (h : ¬(retryableStatus (resp attempt).status = true ∧ attempt < maxR)) :
    fetchLoop url resp maxR (fuel + 1) attempt = ([], .ok (resp attempt)) := by
  simp only [fetchLoop]
  rw [if_neg (by simp only [Bool.and_eq_true, decide_eq_true_eq]; exact h)]

theorem pow2cong (a b : Nat) (h : a = b) : 2 ^ a * 1000 = 2 ^ b * 1000 := by
  rw [h]

theorem fetchLoop_spec (url : String) (resp : Nat → FetchResult) (maxR : Nat) :
    ∀ fuel attempt, attempt + fuel = maxR + 1 → attempt ≤ maxR →
      fetchLoop url resp maxR fuel attempt =
        ((List.range (leadingRetriesAux resp (maxR - attempt) attempt)).map
            (fun i => 2 ^ (attempt + 1 + i) * 1000),
         .ok (resp (attempt + leadingRetriesAux resp (maxR - attempt) attempt))) := by
  intro fuel
  induction fuel with
  | zero => intro attempt h1 h2; omega
  | succ f ih =>
    intro attempt h1 h2
    have hfuel : maxR - attempt = f := by omega
    by_cases hr : retryableStatus (resp attempt).status
    · by_cases hlt : attempt < maxR
      · obtain ⟨f', rfl⟩ : ∃ f', f = f' + 1 := ⟨f - 1, by omega⟩
        have hlead : leadingRetriesAux resp (maxR - attempt) attempt =
            1 + leadingRetriesAux resp f' (attempt + 1) := by
          rw [hfuel]
          show (if retryableStatus (resp attempt).status then
            1 + leadingRetriesAux resp f' (attempt + 1) else 0) = _
          rw [if_pos hr]
        have hnext := ih (attempt + 1) (by omega) (by omega)
        rw [show maxR - (attempt + 1) = f' from by omega] at hnext
        rw [fetchLoop_cons url resp maxR (f' + 1) attempt hr hlt, hnext, hlead,
          ← Nat.add_assoc,
          Nat.add_comm 1 (leadingRetriesAux resp f' (attempt + 1)),
          List.range_succ_eq_map, Prod.mk.injEq]
        constructor
        · simp only [List.map_cons, List.map_map, List.cons.injEq]
          refine ⟨by norm_num, ?_⟩
          apply List.map_congr_left
          intro i _
          simp only [Function.comp_apply]
          apply pow2cong
          omega
        · rfl
      · have hattempt : attempt = maxR := by omega
        rw [fetchLoop_done url resp maxR f attempt (by tauto), hattempt]
        simp [leadingRetriesAux, Nat.sub_self]
    · have hlead : leadingRetriesAux resp (maxR - attempt) attempt = 0 := by
        cases hmr : maxR - attempt with
        | zero => rfl
        | succ k =>
          show (if retryableStatus (resp attempt).status then
            1 + leadingRetriesAux resp k (attempt + 1) else 0) = 0
          rw [if_neg hr]
      rw [fetchLoop_done url resp maxR f attempt (by tauto), hlead]
      simp

/-- A server that always answers 503. -/
def respAll503 : Nat → FetchResult := fun _ => ⟨503, "unavailable", "text/html"⟩

/-- Three 503s then a 200. -/
def resp503Then200 : Nat → FetchResult := fun n =>
  if n < 3 then ⟨503, "busy", "text/html"⟩ else ⟨200, "act page body", "text/html"⟩

/-- A server that answers 404. -/
def resp404 : Nat → FetchResult := fun _ => ⟨404, "not found", "text/html"⟩

/-- **C2, counterexample.**  With only 503 responses, `fetchWithRateLimit`
performs its 3 retries (sleeping 2s, 4s, 8s) and then *returns* the final 503
response as a normal `FetchResult`; no fatal error is raised — the trailing
`throw` is unreachable — refuting the claim's second half at this input. -/
theorem C2_exhausted_retries_returns_503 :
    fetchWithRateLimit "https://ghalii.org/legislation/" respAll503 =
      ([2000, 4000, 8000], .ok ⟨503, "unavailable", "text/html"⟩) := by
  have h := fetchLoop_spec "https://ghalii.org/legislation/" respAll503 3 (3 + 1) 0
    (by omega) (by omega)
  rw [fetchWithRateLimit, h]
  rfl

/-- **C2, amended.**  Three consecutive 503 responses followed by a 200 yield
the 200's body (first half of the claim, confirmed); with only 503 responses
the fetcher performs exactly 3 retries (4 attempts, backoffs 2s/4s/8s) and
then returns the final 503 response to its caller instead of raising; indeed
for every response source the loop returns a response (`.ok`) and never
reaches its trailing `throw`. -/
theorem C2_fetch_retry_exhaustion (url : String) (resp : Nat → FetchResult) :
    fetchWithRateLimit "https://ghalii.org/legislation/" resp503Then200 =
      ([2000, 4000, 8000], .ok ⟨200, "act page body", "text/html"⟩) ∧
    fetchWithRateLimit "https://ghalii.org/legislation/" respAll503 =
      ([2000, 4000, 8000], .ok ⟨503, "unavailable", "text/html"⟩) ∧
    (fetchWithRateLimit url resp).2 =
      .ok (resp (leadingRetriesAux resp 3 0)) := by
  refine ⟨?_, ?_, ?_⟩
  · have h := fetchLoop_spec "https://ghalii.org/legislation/" resp503Then200 3 (3 + 1) 0
      (by omega) (by omega)
    rw [fetchWithRateLimit, h]
    rfl
  · have h := fetchLoop_spec "https://ghalii.org/legislation/" respAll503 3 (3 + 1) 0
      (by omega) (by omega)
    rw [fetchWithRateLimit, h]
    rfl
  · have h := fetchLoop_spec url resp 3 (3 + 1) 0 (by omega) (by omega)
    rw [fetchWithRateLimit, h]
    simp

/-- **C9, counterexample.**  The successive backoff delays produced by
`2^(attempt+1) * 1000` are 2000 ms, 4000 ms, 8000 ms — not the claimed
1s, 2s, 4s — exhibited on an all-503 run. -/
theorem C9_backoff_delays_not_1s2s4s :
    (fetchWithRateLimit "https://ghalii.org/act-index" respAll503).1 =
      [2000, 4000, 8000] ∧
    [2000, 4000, 8000] ≠ [1000, 2000, 4000] := by
  refine ⟨?_, by decide⟩
  have h := fetchLoop_spec "https://ghalii.org/act-index" respAll503 3 (3 + 1) 0
    (by omega) (by omega)
  rw [fetchWithRateLimit, h]
  rfl

/-- **C9, amended.**  The fetcher retries only on status 429 or ≥ 500, up to
3 times, sleeping `2^(attempt+1) * 1000` ms before each retry — successive
delays of 2s, 4s, 8s — and any other status (including 404) is returned
immediately with no retry and no delay. -/
theorem C9_retry_only_on_429_5xx (url : String) (resp : Nat → FetchResult) :
    (retryableStatus (resp 0).status = false →
      fetchWithRateLimit url resp = ([], .ok (resp 0))) ∧
    fetchWithRateLimit url resp =
      ((List.range (leadingRetriesAux resp 3 0)).map (fun i => 2 ^ (i + 1) * 1000),
       .ok (resp (leadingRetriesAux resp 3 0))) ∧
    leadingRetriesAux resp 3 0 ≤ 3 ∧
    (retryableStatus 404 = false ∧ retryableStatus 429 = true ∧
      retryableStatus 503 = true) := by
  have h := fetchLoop_spec url resp 3 (3 + 1) 0 (by omega) (by omega)
  simp only [Nat.sub_zero, Nat.zero_add] at h
  refine ⟨?_, ?_, ?_, by decide, by decide, by decide⟩
  · intro h404
    have hl : leadingRetriesAux resp 3 0 = 0 := by
      show (if retryableStatus (resp 0).status then
        1 + leadingRetriesAux resp 2 1 else 0) = 0
      rw [h404]
      simp
    rw [fetchWithRateLimit, h, hl]
    rfl
  · rw [fetchWithRateLimit, h, Prod.mk.injEq]
    constructor
    · apply List.map_congr_left
      intro i _
      apply pow2cong
      omega
    · rfl
  · have h3 : ∀ b i, leadingRetriesAux resp b i ≤ b := by
      intro b
      induction b with
      | zero => intro i; exact Nat.le_refl 0
      | succ k ih =>
        intro i
        show (if retryableStatus (resp i).status then
          1 + leadingRetriesAux resp k (i + 1) else 0) ≤ k + 1
        by_cases hr : retryableStatus (resp i).status
        · rw [if_pos hr]
          have := ih (i + 1)
          omega
        · rw [if_neg hr]
          omega
    exact h3 3 0

/-- Witness for C9: a 404 is returned immediately with no delay. -/
theorem C9_retry_only_on_429_5xx_witness :
    retryableStatus (resp404 0).status = false ∧
    fetchWithRateLimit "https://ghalii.org/legislation/" resp404 =
      ([], .ok ⟨404, "not found", "text/html"⟩) :=
  ⟨by decide,
   (C9_retry_only_on_429_5xx "https://ghalii.org/legislation/" resp404).1 (by decide)⟩

/-! ## Claims C1 and C8: citation grammar priority and validator early return -/

/-- `parseSection` always reports a valid parse (the outer grammar already
matched; `SECTION_REF` failure only keeps the raw reference). -/
theorem parseSection_valid (a : String) (b : Option String) (c : Nat)
    (d : Option Nat) (e : String) : (parseSection a b c d e).valid = true := by
  rw [parseSection]
  split <;> rfl

/-- An invalid `parseCitationRest` is exactly the fall-through record. -/
theorem parseCitationRest_invalid_shape (t : String)
    (h : (parseCitationRest t).valid = false) :
    parseCitationRest t =
      { valid := false, type := "unknown",
        error := some ("Could not parse Ghana citation: \"" ++ t ++ "\"") } := by
  simp only [parseCitationRest] at h ⊢
  cases hm1 : matchFull FULL_WITH_ACT_NUMBER t with
  | some m => simp only [hm1] at h; simp [parseSection_valid] at h
  | none =>
    simp only [hm1] at h ⊢
    cases hm2 : matchFull FULL_CITATION t with
    | some m => simp only [hm2] at h; simp [parseSection_valid] at h
    | none =>
      simp only [hm2] at h ⊢
      cases hm3 : matchFull SHORT_CITATION t with
      | some m => simp only [hm3] at h; simp [parseSection_valid] at h
      | none =>
        simp only [hm3] at h ⊢
        cases hm4 : matchFull TRAILING_WITH_ACT_NUMBER t with
        | some m => simp only [hm4] at h; simp [parseSection_valid] at h
        | none =>
          simp only [hm4] at h ⊢
          cases hm5 : matchFull TRAILING_SECTION t with
          | some m => simp only [hm5] at h; simp [parseSection_valid] at h
          | none => simp only [hm5]

/-- An invalid parse is exactly the fall-through record with the diagnostic
naming the trimmed input. -/
theorem parseCitation_invalid_shape (s : String)
    (h : (parseCitation s).valid = false) :
    parseCitation s =
      { valid := false, type := "unknown",
        error := some ("Could not parse Ghana citation: \"" ++ jsTrim s ++ "\"") } := by
  simp only [parseCitation] at h ⊢
  cases hm0 : matchFull ID_BASED (jsTrim s) with
  | some m =>
    simp only [hm0] at h ⊢
    cases hm0b : matchFull ID_PARTS ((capGet m 1).getD "") with
    | some idp =>
      simp only [hm0b] at h
      simp [parseSection_valid] at h
    | none =>
      simp only [hm0b] at h ⊢
      exact parseCitationRest_invalid_shape _ h
  | none =>
    simp only [hm0] at h ⊢
    exact parseCitationRest_invalid_shape _ h

/-- A database with no documents and no provisions. -/
def emptyDb : LawDb :=
  ⟨fun _ _ => none, fun _ => none, fun _ _ _ _ => false⟩

/-- **C8.**  When the grammar rejects the citation string, `validateCitation`
returns immediately: `document_exists = false`, `provision_exists = false`,
the warnings list is exactly the one parse-error diagnostic, and no database
lookup is performed — the result is the same for every database. -/
theorem C8_invalid_citation_early_return (db : LawDb) (s : String)
    (h : (parseCitation s).valid = false) :
    validateCitation db s =
      { citation := parseCitation s, document_exists := false,
        provision_exists := false,
        warnings := [(parseCitation s).error.getD "Invalid citation format"] } ∧
    (parseCitation s).error =
      some ("Could not parse Ghana citation: \"" ++ jsTrim s ++ "\"") ∧
    (∀ db' : LawDb, validateCitation db' s = validateCitation db s) := by
  refine ⟨?_, ?_, ?_⟩
  · simp [validateCitation, h]
  · rw [parseCitation_invalid_shape s h]
  · intro db'
    simp [validateCitation, h]

/-- Witness for C8 at the unparseable string `"hello world"`. -/
theorem C8_invalid_citation_early_return_witness :
    (parseCitation "hello world").valid = false ∧
    validateCitation emptyDb "hello world" =
      { citation := parseCitation "hello world", document_exists := false,
        provision_exists := false,
        warnings := [(parseCitation "hello world").error.getD "Invalid citation format"] } :=
  ⟨by decide,
   (C8_invalid_citation_early_return emptyDb "hello world" (by decide)).1⟩

/-- **C1.**  `parseCitation` tries the six surface grammars in the fixed
priority order ID-based, full-with-instrument-number,
full-without-instrument-number, short, trailing-with-instrument-number,
trailing-without-instrument-number, returning the decomposition of the first
grammar that matches (the ID-based grammar falls through when its id part
fails to re-decompose, which cannot happen for a matched id).  In particular
`"act-843-2012, s. 1"` is classified by the ID-based grammar — yielding
`act_number = 843`, `year = 2012`, `section = "1"` — and it is not even
accepted by the trailing-citation grammars. -/
theorem C1_grammar_priority_order :
    (∀ s m idp, matchFull ID_BASED (jsTrim s) = some m →
      matchFull ID_PARTS ((capGet m 1).getD "") = some idp →
      parseCitation s =
        parseSection ((capGet m 2).getD "") none
          (parseIntDec ((capGet idp 2).getD ""))
          (some (parseIntDec ((capGet idp 1).getD ""))) "act") ∧
    (∀ s, matchFull ID_BASED (jsTrim s) = none →
      parseCitation s = parseCitationRest (jsTrim s)) ∧
    (∀ t m, matchFull FULL_WITH_ACT_NUMBER t = some m →
      parseCitationRest t =
        parseSection ((capGet m 1).getD "") (capGet m 2)
          (parseIntDec ((capGet m 3).getD ""))
          (some (parseIntDec ((capGet m 4).getD ""))) "act") ∧
    (∀ t m, matchFull FULL_WITH_ACT_NUMBER t = none →
      matchFull FULL_CITATION t = some m →
      parseCitationRest t =
        parseSection ((capGet m 1).getD "") (capGet m 2)
          (parseIntDec ((capGet m 3).getD "")) none "act") ∧
    (∀ t m, matchFull FULL_WITH_ACT_NUMBER t = none →
      matchFull FULL_CITATION t = none →
      matchFull SHORT_CITATION t = some m →
      parseCitationRest t =
        parseSection ((capGet m 1).getD "") (capGet m 2)
          (parseIntDec ((capGet m 3).getD "")) none "act") ∧
    (∀ t m, matchFull FULL_WITH_ACT_NUMBER t = none →
      matchFull FULL_CITATION t = none →
      matchFull SHORT_CITATION t = none →
      matchFull TRAILING_WITH_ACT_NUMBER t = some m →
      parseCitationRest t =
        parseSection ((capGet m 4).getD "") (capGet m 1)
          (parseIntDec ((capGet m 2).getD ""))
          (some (parseIntDec ((capGet m 3).getD ""))) "act") ∧
    (∀ t m, matchFull FULL_WITH_ACT_NUMBER t = none →
      matchFull FULL_CITATION t = none →
      matchFull SHORT_CITATION t = none →
      matchFull TRAILING_WITH_ACT_NUMBER t = none →
      matchFull TRAILING_SECTION t = some m →
      parseCitationRest t =
        parseSection ((capGet m 3).getD "") (capGet m 1)
          (parseIntDec ((capGet m 2).getD "")) none "act") ∧
    parseCitation "act-843-2012, s. 1" =
      { valid := true, type := "act", act_number := some 843, year := some 2012,
        «section» := some "1" } ∧
    (matchFull ID_BASED (jsTrim "act-843-2012, s. 1")).isSome = true ∧
    (matchFull TRAILING_SECTION (jsTrim "act-843-2012, s. 1")).isSome = false ∧
    (matchFull TRAILING_WITH_ACT_NUMBER (jsTrim "act-843-2012, s. 1")).isSome = false := by
  refine ⟨?_, ?_, ?_, ?_, ?_, ?_, ?_, by decide, by decide, by decide, by decide⟩
  · intro s m idp h0 h1
    simp only [parseCitation, h0, h1]
  · intro s h0
    simp only [parseCitation, h0]
  · intro t m h1
    simp only [parseCitationRest, h1]
  · intro t m h1 h2
    simp only [parseCitationRest, h1, h2]
  · intro t m h1 h2 h3
    simp only [parseCitationRest, h1, h2, h3]
  · intro t m h1 h2 h3 h4
    simp only [parseCitationRest, h1, h2, h3, h4]
  · intro t m h1 h2 h3 h4 h5
    simp only [parseCitationRest, h1, h2, h3, h4, h5]

/-! ## Claim C5: within-call dedupe of the cross-reference extractor -/

/-- The dedupe key of an extracted reference. -/
def euKeyOf (r : ExtractedEUReference) : String :=
  euDedupeKey r.euDocumentId r.euArticle

theorem strAppendEmpty (s : String) : s ++ "" = s := by
  cases s with
  | mk l =>
    show String.mk (l ++ []) = String.mk l
    rw [List.append_nil]

/-- The extractor-accumulator invariant: every emitted reference's key is in
the seen set, and the emitted keys are pairwise distinct. -/
def ExtractorInv (acc : List String × List ExtractedEUReference) : Prop :=
  (∀ r ∈ acc.2, euKeyOf r ∈ acc.1) ∧
  acc.2.Pairwise (fun a b => euKeyOf a ≠ euKeyOf b)

theorem seenPush_inv (acc : List String × List ExtractedEUReference)
    (key : String) (r : ExtractedEUReference) (hk : euKeyOf r = key)
    (h : ExtractorInv acc) : ExtractorInv (seenPush acc key r) := by
  rw [seenPush]
  by_cases hc : acc.1.contains key
  · rw [if_pos hc]
    exact h
  · rw [if_neg hc]
    have hnot : key ∉ acc.1 := by
      intro hmem
      exact hc (List.elem_iff.mpr hmem)
    constructor
    · intro x hx
      rcases List.mem_append.mp hx with hx | hx
      · exact List.mem_append_left _ (h.1 x hx)
      · rcases List.mem_singleton.mp hx with rfl
        rw [hk]
        exact List.mem_append_right _ (List.mem_singleton.mpr rfl)
    · rw [List.pairwise_append]
      refine ⟨h.2, List.pairwise_singleton _ _, ?_⟩
      intro a ha b hb
      rcases List.mem_singleton.mp hb with rfl
      rw [hk]
      intro heq
      exact hnot (heq ▸ h.1 a ha)

theorem euMatchCore_inv (text : List Char) (m : Nat × List Char × Caps)
    (acc : List String × List ExtractedEUReference)
    (type_ rawYear rawNumber : String) (communityRaw : Option String)
    (h : ExtractorInv acc) :
    ExtractorInv (euMatchCore text m acc type_ rawYear rawNumber communityRaw) := by
  rw [euMatchCore]
  split
  · exact h
  · apply seenPush_inv
    · rw [euKeyOf]
    · exact h

theorem euMatchStep_inv (text : List Char) (patIdx : Nat)
    (m : Nat × List Char × Caps) (acc : List String × List ExtractedEUReference)
    (h : ExtractorInv acc) : ExtractorInv (euMatchStep text patIdx m acc) := by
  rw [euMatchStep]
  split
  · exact euMatchCore_inv _ _ _ _ _ _ _ h
  · split
    · exact euMatchCore_inv _ _ _ _ _ _ _ h
    · exact euMatchCore_inv _ _ _ _ _ _ _ h

theorem convMatchStep_inv (text : List Char) (cp : ConventionPattern)
    (m : Nat × List Char × Caps) (acc : List String × List ExtractedEUReference)
    (h : ExtractorInv acc) : ExtractorInv (convMatchStep text cp m acc) := by
  rw [convMatchStep]
  apply seenPush_inv
  · show cp.id ++ ":" ++ "" = cp.id ++ ":"
    exact strAppendEmpty _
  · exact h

/-- Fold preservation of an invariant. -/
theorem foldl_inv {α β : Type} (P : β → Prop) (f : β → α → β)
    (hf : ∀ b a, P b → P (f b a)) :
    ∀ (l : List α) (b : β), P b → P (l.foldl f b) := by
  intro l
  induction l with
  | nil => intro b hb; exact hb
  | cons x xs ih => intro b hb; exact ih (f b x) (hf b x hb)

/-- A text with two mentions of the same instrument and one article mention:
both occurrences carry the same `(instrument, article)` pair. -/
def gdprTwiceText : String :=
  "Article 5 of Regulation (EU) No 2016/679; see Regulation (EU) No 2016/679."

set_option maxHeartbeats 2000000 in
/-- **C5.**  A single `extractEuReferences` call returns at most one
reference per distinct `(instrument_id, article-or-empty)` pair: the emitted
references have pairwise distinct dedupe keys, for every input text.  On a
text mentioning `"Regulation (EU) No 2016/679"` twice (three generic-pattern
matches in total), exactly one reference for the pair
`("regulation:2016/679", "5")` survives — later matches of the same pair are
dropped, not merged. -/
theorem C5_extract_dedupe_pairwise (text : String) :
    (extractEuReferences text).Pairwise (fun a b => euKeyOf a ≠ euKeyOf b) ∧
    (extractEuReferences gdprTwiceText).map
        (fun r => (r.euDocumentId, r.euArticle, r.referenceType)) =
      [("regulation:2016/679", some "5", "references")] ∧
    (gexec euPat0 gdprTwiceText).length = 2 := by
  have hacc : ExtractorInv (extractAcc text) := by
    rw [extractAcc]
    exact foldl_inv ExtractorInv
      (fun acc cp => (gexec cp.pattern text).foldl
        (fun a m => convMatchStep text.data cp m a) acc)
      (fun b cp hb => foldl_inv ExtractorInv
        (fun a m => convMatchStep text.data cp m a)
        (fun b2 m2 hb2 => convMatchStep_inv text.data cp m2 b2 hb2)
        (gexec cp.pattern text) b hb)
      conventionPatterns _
      (foldl_inv ExtractorInv
        (fun acc (pm : Nat × (Nat × List Char × Caps)) =>
          euMatchStep text.data pm.1 pm.2 acc)
        (fun b pm hb => euMatchStep_inv text.data pm.1 pm.2 b hb)
        _ ([], []) ⟨fun r hr => absurd hr (List.not_mem_nil r), List.Pairwise.nil⟩)
  refine ⟨?_, by decide, by decide⟩
  rw [extractEuReferences]
  split
  · exact List.Pairwise.nil
  · exact hacc.2

/-- Witness for C5's pairwise statement at the concrete text (the theorem's
only hypotheses are inside the invariant machinery; this instantiates the
statement at `gdprTwiceText`). -/
theorem C5_extract_dedupe_pairwise_witness :
    (extractEuReferences gdprTwiceText).Pairwise
      (fun a b => euKeyOf a ≠ euKeyOf b) :=
  (C5_extract_dedupe_pairwise gdprTwiceText).1

/-! ## Claim C4: is_primary assignment during ingestion -/

/-- One inserted reference row: source document id, the extracted reference,
and its `is_primary_implementation` flag. -/
abbrev EuEntry := String × ExtractedEUReference × Bool

/-- The `primaryImplementationByDocument` key of an inserted row. -/
def primaryKeyOf (e : EuEntry) : String := e.1 ++ ":" ++ e.2.1.euDocumentId

/-- The marking discipline the claim describes, as a predicate on the row
list: a row is primary exactly when it is classified `implements` and no
earlier row carries a primary for the same (document, instrument) key. -/
def FirstImplementsMarking (l : List EuEntry) : Prop :=
  ∀ i, (hi : i < l.length) →
    (l[i].2.2 = true ↔
      (l[i].2.1.referenceType = "implements" ∧
        ∀ j, (hj : j < i) → l[j].2.2 = true →
          primaryKeyOf l[j] ≠ primaryKeyOf l[i]))

/-- The pipeline invariant: the seen set holds exactly the keys of already
emitted primaries, and the emitted rows obey the marking discipline. -/
def MarkInv (acc : List EuEntry × List String) : Prop :=
  (∀ k, k ∈ acc.2 ↔ ∃ e ∈ acc.1, e.2.2 = true ∧ primaryKeyOf e = k) ∧
  FirstImplementsMarking acc.1

theorem markOne_inv (docId : String) (acc : List EuEntry × List String)
    (r : ExtractedEUReference) (h : MarkInv acc) :
    MarkInv
      (acc.1 ++ [(docId, r,
         r.referenceType = "implements" &&
           !(acc.2.contains (docId ++ ":" ++ r.euDocumentId)))],
       if r.referenceType = "implements" &&
           !(acc.2.contains (docId ++ ":" ++ r.euDocumentId))
       then acc.2 ++ [docId ++ ":" ++ r.euDocumentId] else acc.2) := by
  obtain ⟨hseen, hmark⟩ := h
  set key := docId ++ ":" ++ r.euDocumentId with hkey
  set b : Bool :=
    (r.referenceType = "implements" && !(acc.2.contains key)) with hb
  have hxkey : primaryKeyOf (docId, r, b) = key := by rw [hkey]; rfl
  constructor
  · intro k
    by_cases hbb : b = true
    · rw [if_pos hbb]
      constructor
      · intro hk
        rcases List.mem_append.mp hk with hk | hk
        · obtain ⟨e, he, hp, hkk⟩ := (hseen k).mp hk
          exact ⟨e, List.mem_append_left _ he, hp, hkk⟩
        · rcases List.mem_singleton.mp hk with rfl
          exact ⟨(docId, r, b),
            List.mem_append_right _ (List.mem_singleton.mpr rfl), hbb, hxkey⟩
      · rintro ⟨e, he, hp, hkk⟩
        rcases List.mem_append.mp he with he | he
        · exact List.mem_append_left _ ((hseen k).mpr ⟨e, he, hp, hkk⟩)
        · rcases List.mem_singleton.mp he with rfl
          rw [← hkk, hxkey]
          exact List.mem_append_right _ (List.mem_singleton.mpr rfl)
    · rw [if_neg hbb]
      constructor
      · intro hk
        obtain ⟨e, he, hp, hkk⟩ := (hseen k).mp hk
        exact ⟨e, List.mem_append_left _ he, hp, hkk⟩
      · rintro ⟨e, he, hp, hkk⟩
        rcases List.mem_append.mp he with he | he
        · exact (hseen k).mpr ⟨e, he, hp, hkk⟩
        · rcases List.mem_singleton.mp he with rfl
          exact absurd hp hbb
  · show FirstImplementsMarking (acc.1 ++ [(docId, r, b)])
    intro i hi
    have hi1 : i < acc.1.length + 1 := by
      rw [List.length_append, List.length_singleton] at hi
      exact hi
    rcases Nat.lt_or_ge i acc.1.length with hlt | hge
    · have e1 : (acc.1 ++ [(docId, r, b)])[i] = acc.1[i] :=
        List.getElem_append_left hlt
      rw [e1]
      constructor
      · intro hp
        obtain ⟨h1, h2⟩ := (hmark i hlt).mp hp
        refine ⟨h1, ?_⟩
        intro j hj hpj
        have hjlt : j < acc.1.length := by omega
        have ej : (acc.1 ++ [(docId, r, b)])[j] = acc.1[j] :=
          List.getElem_append_left hjlt
        rw [ej] at hpj ⊢
        exact h2 j hj hpj
      · rintro ⟨h1, h2⟩
        refine (hmark i hlt).mpr ⟨h1, ?_⟩
        intro j hj hpj
        have hjlt : j < acc.1.length := by omega
        have ej : (acc.1 ++ [(docId, r, b)])[j] = acc.1[j] :=
          List.getElem_append_left hjlt
        rw [← ej] at hpj
        have h3 := h2 j hj hpj
        rw [ej] at h3
        exact h3
    · have hieq : i = acc.1.length := by omega
      have e1 : (acc.1 ++ [(docId, r, b)])[i] = (docId, r, b) :=
        List.getElem_concat_length _ _ _ hieq _
      rw [e1]
      show b = true ↔ _
      constructor
      · intro hbt
        rw [hb] at hbt
        obtain ⟨h1, h2⟩ := Bool.and_eq_true_iff.mp hbt
        have hnotin : key ∉ acc.2 := by
          intro hk
          rw [Bool.not_eq_true'] at h2
          have hk2 : acc.2.elem key = true := List.elem_iff.mpr hk
          rw [List.contains, hk2] at h2
          cases h2
        refine ⟨of_decide_eq_true h1, ?_⟩
        intro j hj hpj
        have hjlt : j < acc.1.length := by omega
        have ej : (acc.1 ++ [(docId, r, b)])[j] = acc.1[j] :=
          List.getElem_append_left hjlt
        rw [ej] at hpj ⊢
        rw [hxkey]
        intro heq
        exact hnotin ((hseen key).mpr
          ⟨acc.1[j], List.getElem_mem hjlt, hpj, heq⟩)
      · rintro ⟨h1, h2⟩
        rw [hb]
        refine Bool.and_eq_true_iff.mpr ⟨decide_eq_true h1, ?_⟩
        have hnotin : key ∉ acc.2 := by
          intro hk
          obtain ⟨e, he, hp, hkk⟩ := (hseen key).mp hk
          obtain ⟨j, hjlt, rfl⟩ := List.mem_iff_getElem.mp he
          have ej : (acc.1 ++ [(docId, r, b)])[j] = acc.1[j] :=
            List.getElem_append_left hjlt
          have hji : j < i := by omega
          apply h2 j hji
          · rw [ej]
            exact hp
          · rw [ej, hxkey]
            exact hkk
        rw [Bool.not_eq_true']
        rw [← Bool.not_eq_true (acc.2.contains key)]
        intro hc
        exact hnotin (List.elem_iff.mp hc)

theorem markRefsStep_inv (docId : String) (refs : List ExtractedEUReference)
    (acc : List EuEntry × List String) (h : MarkInv acc) :
    MarkInv (markRefsStep docId refs acc) := by
  rw [markRefsStep]
  exact foldl_inv MarkInv _ (fun a r ha => markOne_inv docId a r ha) refs acc h

/-- The whole-run invariant of `buildDatabase`'s reference insertion. -/
theorem pipelineAcc_inv (docs : List (String × List ProvisionSeed)) :
    MarkInv (docs.foldl
      (fun acc doc =>
        doc.2.foldl
          (fun a prov => markRefsStep doc.1 (extractEuReferences prov.content) a)
          acc)
      ([], [])) := by
  apply foldl_inv MarkInv _
    (fun b doc hb => foldl_inv MarkInv _
      (fun a prov ha => markRefsStep_inv doc.1 (extractEuReferences prov.content) a ha)
      doc.2 b hb)
    docs ([], [])
  constructor
  · intro k
    constructor
    · intro hk
      exact absurd hk (List.not_mem_nil k)
    · rintro ⟨e, he, -, -⟩
      exact absurd he (List.not_mem_nil e)
  · intro i hi
    exact absurd hi (by simp)

def dpProv1 : ProvisionSeed :=
  { provision_ref := "s1", «section» := "1",
    content := "This Act implements Directive 95/46." }
def dpProv2 : ProvisionSeed :=
  { provision_ref := "s2", «section» := "2",
    content := "General administration provisions." }
def dpProv3 : ProvisionSeed :=
  { provision_ref := "s3", «section» := "3",
    content := "See Directive 95/46 for details." }

set_option maxHeartbeats 2000000 in
/-- **C4.**  During ingestion, scanning each document's provisions in
document order, a reference row is marked primary exactly when it is
classified `implements` and no earlier row of the run carries a primary for
the same (document, instrument) key; hence every primary row is an
`implements` row (rows classified `references` are never primary), at most
one row per (document, instrument) pair is primary, and in a 3-provision
document whose provisions 1 and 3 both reference `directive:1995/46` with
provision 1's context classifying as `implements`, only provision 1's
reference is primary. -/
theorem C4_primary_first_implements (docs : List (String × List ProvisionSeed)) :
    FirstImplementsMarking (pipelineEuRefs docs) ∧
    (∀ i, (hi : i < (pipelineEuRefs docs).length) →
      (pipelineEuRefs docs)[i].2.2 = true →
      (pipelineEuRefs docs)[i].2.1.referenceType = "implements") ∧
    (∀ i j, (hi : i < (pipelineEuRefs docs).length) →
      (hj : j < (pipelineEuRefs docs).length) → i < j →
      (pipelineEuRefs docs)[i].2.2 = true →
      (pipelineEuRefs docs)[j].2.2 = true →
      primaryKeyOf ((pipelineEuRefs docs)[i]) ≠
        primaryKeyOf ((pipelineEuRefs docs)[j])) ∧
    (pipelineEuRefs [("act-843-2012", [dpProv1, dpProv2, dpProv3])]).map
        (fun e => (e.2.1.euDocumentId, e.2.1.referenceType, e.2.2)) =
      [("directive:1995/46", "implements", true),
       ("directive:1995/46", "references", false)] := by
  have hmark : FirstImplementsMarking (pipelineEuRefs docs) := by
    rw [pipelineEuRefs]
    exact (pipelineAcc_inv docs).2
  refine ⟨hmark, ?_, ?_, by decide⟩
  · intro i hi hp
    exact ((hmark i hi).mp hp).1
  · intro i j hi hj hij hpi hpj
    have h2 := ((hmark j hj).mp hpj).2
    exact h2 i hij hpi

/-- Witness for C4 at the concrete 3-provision document: the first row is
primary and is the `implements` row. -/
theorem C4_primary_first_implements_witness :
    (pipelineEuRefs [("act-843-2012", [dpProv1, dpProv2, dpProv3])]).length = 2 ∧
    (pipelineEuRefs [("act-843-2012", [dpProv1, dpProv2, dpProv3])])[0].2.1.referenceType
      = "implements" :=
  ⟨by decide,
   (C4_primary_first_implements [("act-843-2012", [dpProv1, dpProv2, dpProv3])]).2.1
     0 (by decide) (by decide)⟩

/-- Witness for C1: the ID-based grammar fires first on
`"act-843-2012, s. 1"` with its concrete captures. -/
theorem C1_grammar_priority_order_witness :
    matchFull ID_BASED (jsTrim "act-843-2012, s. 1") =
      some [(2, "1"), (1, "act-843-2012")] ∧
    matchFull ID_PARTS "act-843-2012" = some [(2, "2012"), (1, "843")] ∧
    parseCitation "act-843-2012, s. 1" =
      parseSection "1" none (parseIntDec "2012") (some (parseIntDec "843")) "act" :=
  ⟨by decide, by decide,
   C1_grammar_priority_order.1 "act-843-2012, s. 1"
     [(2, "1"), (1, "act-843-2012")] [(2, "2012"), (1, "843")]
     (by decide) (by decide)⟩

/-! ## C10 — a valid parse always carries a non-empty section and formats
to a non-empty citation.

Every grammar captures its section reference with a mandatory group whose
body matches at least one digit, so `mandNE` certifies the capture
non-empty; `parseSection` then stores either that capture or `SECTION_REF`'s
own mandatory group 1. -/

/-- A string whose character list starts with some character is non-empty. -/
theorem str_ne_of_data_cons (s : String) (c : Char) (t : List Char)
    (hd : s.data = c :: t) : s ≠ "" := by
  intro h
  subst h
  have h2 : ([] : List Char) = c :: t := hd
  exact List.noConfusion h2

/-- `trim` of a string whose first character is not whitespace is non-empty. -/
theorem jsTrim_cons_ne (s : String) (c : Char) (t : List Char)
    (hd : s.data = c :: t) (hc : jsWs c = false) : jsTrim s ≠ "" := by
  intro h
  have h2 : trimChars s.data = [] := congrArg String.data h
  rw [hd, trimChars] at h2
  have hd1 : (c :: t).dropWhile jsWs = c :: t := by
    simp [List.dropWhile_cons, hc]
  rw [hd1] at h2
  have h3 : (c :: t).reverse.dropWhile jsWs = [] :=
    List.reverse_eq_nil_iff.mp h2
  have h4 := List.dropWhile_eq_nil_iff.mp h3 c (by simp)
  rw [hc] at h4
  exact Bool.false_ne_true h4

/-- A formatted full citation, starting with the word `Section`, survives
the final trim. -/
theorem jsTrim_sectionword_ne (x : String) : jsTrim ("Section " ++ x) ≠ "" :=
  jsTrim_cons_ne _ 'S' ("ection ".data ++ x.data) rfl (by decide)

/-- A formatted short citation, starting with `s.`, survives the final
trim. -/
theorem jsTrim_sdot_ne (x : String) : jsTrim ("s. " ++ x) ≠ "" :=
  jsTrim_cons_ne _ 's' (". ".data ++ x.data) rfl (by decide)

/-- A pinpoint-formatted citation starts with `s.` and is non-empty. -/
theorem sdot_append_ne (x : String) : ("s. " ++ x) ≠ "" :=
  str_ne_of_data_cons _ 's' (". ".data ++ x.data) rfl

/-- `parseSection` on a non-empty section string always stores a non-empty
section: either `SECTION_REF`'s mandatory group 1, or the raw string. -/
theorem parseSection_secNE (sectionStr : String) (title : Option String)
    (year : Nat) (actNumber : Option Nat) (type_ : String)
    (hs : sectionStr ≠ "") :
    ∃ v, (parseSection sectionStr title year actNumber type_).«section» =
      some v ∧ v ≠ "" := by
  rw [parseSection]
  cases h : matchFull SECTION_REF sectionStr with
  | none => exact ⟨sectionStr, rfl, hs⟩
  | some caps =>
    obtain ⟨v, hv, hvne⟩ := matchFull_capNE SECTION_REF 1 sectionStr caps
      (by decide) h
    exact ⟨v, hv, hvne⟩

/-- Each of grammars 2–6 stores a non-empty section when it accepts. -/
theorem parseCitationRest_secNE (t : String)
    (h : (parseCitationRest t).valid = true) :
    ∃ v, (parseCitationRest t).«section» = some v ∧ v ≠ "" := by
  simp only [parseCitationRest] at h ⊢
  cases hm1 : matchFull FULL_WITH_ACT_NUMBER t with
  | some m =>
    simp only [hm1]
    obtain ⟨v, hv, hvne⟩ := matchFull_capNE FULL_WITH_ACT_NUMBER 1 t m
      (by decide) hm1
    exact parseSection_secNE _ _ _ _ _ (by rw [hv]; exact hvne)
  | none =>
    simp only [hm1] at h ⊢
    cases hm2 : matchFull FULL_CITATION t with
    | some m =>
      simp only [hm2]
      obtain ⟨v, hv, hvne⟩ := matchFull_capNE FULL_CITATION 1 t m
        (by decide) hm2
      exact parseSection_secNE _ _ _ _ _ (by rw [hv]; exact hvne)
    | none =>
      simp only [hm2] at h ⊢
      cases hm3 : matchFull SHORT_CITATION t with
      | some m =>
        simp only [hm3]
        obtain ⟨v, hv, hvne⟩ := matchFull_capNE SHORT_CITATION 1 t m
          (by decide) hm3
        exact parseSection_secNE _ _ _ _ _ (by rw [hv]; exact hvne)
      | none =>
        simp only [hm3] at h ⊢
        cases hm4 : matchFull TRAILING_WITH_ACT_NUMBER t with
        | some m =>
          simp only [hm4]
          obtain ⟨v, hv, hvne⟩ := matchFull_capNE TRAILING_WITH_ACT_NUMBER 4 t m
            (by decide) hm4
          exact parseSection_secNE _ _ _ _ _ (by rw [hv]; exact hvne)
        | none =>
          simp only [hm4] at h ⊢
          cases hm5 : matchFull TRAILING_SECTION t with
          | some m =>
            simp only [hm5]
            obtain ⟨v, hv, hvne⟩ := matchFull_capNE TRAILING_SECTION 3 t m
              (by decide) hm5
            exact parseSection_secNE _ _ _ _ _ (by rw [hv]; exact hvne)
          | none =>
            simp only [hm5] at h
            exact absurd h Bool.false_ne_true

/-- A valid `parseCitation` result always carries a non-empty section. -/
theorem parseCitation_secNE (s : String)
    (h : (parseCitation s).valid = true) :
    ∃ v, (parseCitation s).«section» = some v ∧ v ≠ "" := by
  simp only [parseCitation] at h ⊢
  cases hm0 : matchFull ID_BASED (jsTrim s) with
  | some m =>
    simp only [hm0] at h ⊢
    cases hm0b : matchFull ID_PARTS ((capGet m 1).getD "") with
    | some idp =>
      simp only [hm0b]
      obtain ⟨v, hv, hvne⟩ := matchFull_capNE ID_BASED 2 (jsTrim s) m
        (by decide) hm0
      exact parseSection_secNE _ _ _ _ _ (by rw [hv]; exact hvne)
    | none =>
      simp only [hm0b] at h ⊢
      exact parseCitationRest_secNE _ h
  | none =>
    simp only [hm0] at h ⊢
    exact parseCitationRest_secNE _ h

/-- An invalid parse always formats to the empty string, for every style. -/
theorem formatCitation_empty_of_invalid (p : ParsedCitation)
    (style : CitationFormat) (h : p.valid = false) :
    formatCitation p style = "" := by
  rw [formatCitation, h]
  rfl

/-- A valid parse with a non-empty section formats to a non-empty string,
for every style. -/
theorem formatCitation_ne_of_valid (p : ParsedCitation)
    (style : CitationFormat) (hval : p.valid = true) (v : String)
    (hv : p.«section» = some v) (hvne : v ≠ "") :
    formatCitation p style ≠ "" := by
  have hst : strTruthy p.«section» = true := by
    rw [hv]
    simpa [strTruthy] using hvne
  rw [formatCitation, hval, hst]
  rw [if_neg (by decide)]
  cases style with
  | full =>
    simp only [String.append_assoc]
    exact jsTrim_sectionword_ne _
  | short =>
    simp only [String.append_assoc]
    exact jsTrim_sdot_ne _
  | pinpoint =>
    exact sdot_append_ne _

/-- **C10.**  For every input string, a valid `parseCitation` result stores
a non-empty section string (each grammar's section capture is a mandatory
group matching at least one digit, and `parseSection` keeps either
`SECTION_REF`'s mandatory group 1 or the raw capture); consequently
`formatCitation` of the parse is the empty string exactly when the parse is
invalid — every valid parse formats to a non-empty citation, in every
style. -/
theorem C10_valid_section_nonempty (s : String) (style : CitationFormat) :
    ((parseCitation s).valid = true →
      ∃ v, (parseCitation s).«section» = some v ∧ v ≠ "") ∧
    (formatCitation (parseCitation s) style = "" ↔
      (parseCitation s).valid = false) := by
  refine ⟨parseCitation_secNE s, ?_⟩
  cases hval : (parseCitation s).valid with
  | false =>
    exact iff_of_true (formatCitation_empty_of_invalid _ _ hval) rfl
  | true =>
    obtain ⟨v, hv, hvne⟩ := parseCitation_secNE s hval
    constructor
    · intro hfmt
      exact absurd hfmt (formatCitation_ne_of_valid _ style hval v hv hvne)
    · intro hcontra
      exact absurd hcontra (by decide)

/-- Witness for C10 at the concrete valid citation `"act-843-2012, s. 1"` in
pinpoint style: the parse is valid, its section is the non-empty `"1"`, and
the formatted string `"s. 1"` is non-empty. -/
theorem C10_valid_section_nonempty_witness :
    ((parseCitation "act-843-2012, s. 1").valid = true →
      ∃ v, (parseCitation "act-843-2012, s. 1").«section» = some v ∧ v ≠ "") ∧
    (formatCitation (parseCitation "act-843-2012, s. 1") .pinpoint = "" ↔
      (parseCitation "act-843-2012, s. 1").valid = false) :=
  C10_valid_section_nonempty "act-843-2012, s. 1" .pinpoint

/-! ## C7 — format-after-parse: deterministic, but not idempotent in
general.

The pinpoint style emits `s. N` with no year, which no grammar accepts, and
the full style applied to an ID-based parse (whose `title` is absent) emits
`Section N,  YYYY (Act M)` with an empty title slot, which also reparses to
nothing.  On outputs that do reparse — full- and short-style outputs of a
titled citation — one parse-then-format application reaches a fixed
point. -/

/-- Counterexample to C7: the valid citation `"act-843-2012, s. 1"`
pinpoint-formats to `"s. 1"`, which fails to reparse, so the second
format-after-parse yields `""`, not `"s. 1"`; likewise its full-style output
`"Section 1,  2012 (Act 843)"` (empty title slot) fails to reparse, so the
second application yields `""` there too. -/
theorem C7_roundtrip_not_idempotent :
    ((parseCitation "act-843-2012, s. 1").valid = true ∧
     formatCitation (parseCitation "act-843-2012, s. 1") .pinpoint = "s. 1" ∧
     (parseCitation "s. 1").valid = false ∧
     formatCitation (parseCitation "s. 1") .pinpoint = "") ∧
    (formatCitation (parseCitation "act-843-2012, s. 1") .full =
       "Section 1,  2012 (Act 843)" ∧
     (parseCitation "Section 1,  2012 (Act 843)").valid = false ∧
     formatCitation (parseCitation "Section 1,  2012 (Act 843)") .full = "") := by
  exact ⟨⟨by decide, by decide, by decide, by decide⟩,
         ⟨by decide, by decide, by decide⟩⟩

/-- **C7 (amended).**  Format-after-parse is deterministic (parsing and
formatting are pure: equal inputs give equal outputs for every style), and
on full- and short-style outputs of a titled citation it reaches a fixed
point after one application: the full-style output of
`"Section 1, Evidence Act 1975 (Act 323)"` is that string itself, and its
short-style output `"s. 1, Evidence Act 1975"` reparses and short-formats
to itself — so for these styles the composite is idempotent from the first
output onward, while pinpoint-style outputs and title-less parses (the
counterexample) never reparse. -/
theorem C7_roundtrip_fixed_point :
    (∀ s₁ s₂ : String, ∀ style : CitationFormat, s₁ = s₂ →
       formatCitation (parseCitation s₁) style =
         formatCitation (parseCitation s₂) style) ∧
    (formatCitation (parseCitation "Section 1, Evidence Act 1975 (Act 323)") .full =
       "Section 1, Evidence Act 1975 (Act 323)") ∧
    (formatCitation (parseCitation "Section 1, Evidence Act 1975 (Act 323)") .short =
       "s. 1, Evidence Act 1975" ∧
     formatCitation (parseCitation "s. 1, Evidence Act 1975") .short =
       "s. 1, Evidence Act 1975") := by
  refine ⟨fun s₁ s₂ style h => by rw [h], by decide, by decide, by decide⟩

/-- Witness for C7: the determinism clause applied at the canonical titled
citation in full style. -/
theorem C7_roundtrip_fixed_point_witness :
    formatCitation (parseCitation "Section 1, Evidence Act 1975 (Act 323)") .full =
      formatCitation (parseCitation "Section 1, Evidence Act 1975 (Act 323)") .full :=
  C7_roundtrip_fixed_point.1 "Section 1, Evidence Act 1975 (Act 323)"
    "Section 1, Evidence Act 1975 (Act 323)" .full rfl

end GhanaLaw
